import Mathlib

/-!
# Verification of the info-central block lifecycle core

Shallow embedding of the backend of the info-central-app repository
(`src/backend/app`): the data model (`models/block.py`), the sandboxed
executor (`services/execution_service.py`), the oracle-output parser
(`services/ai_service.py`), the lifecycle orchestrator
(`services/block_service.py`) and the data endpoints (`api/blocks.py`).

Modelling conventions:
* The relational store is a quadruple of row lists kept in insertion
  order; a session carries the live store and the snapshot taken at the
  last `commit` (the code never rolls back).
* External nondeterminism (subprocess outcomes, oracle responses) is
  supplied by streams `Nat → _` consumed in program order, with a cursor
  per stream in `World`.
* Wall-clock time is an integer `now`; a single orchestrator operation is
  instantaneous (all rows written during one operation, including nested
  heal/retry steps, carry the operation's timestamp), and `now` advances
  only between top-level operations.
* Every operation also returns the list of observable external effects it
  performed (executor runs, oracle calls, heal invocations).
-/

namespace InfoCentral

/-- Opaque JSON payload produced by one successful block execution. -/
abbrev Payload := Nat

/-! ### String primitives with Python semantics

Structurally recursive equivalents of the Python string operations the
source uses (`strip`, `startswith`, `split`, `join`), so that concrete
witnesses evaluate inside the kernel. -/

/-- Python `str.strip()`: remove leading and trailing whitespace. -/
def pyStrip (s : String) : String :=
  String.mk (((s.data.dropWhile Char.isWhitespace).reverse.dropWhile
    Char.isWhitespace).reverse)

/-- Python `str.startswith(p)`. -/
def pyStartsWith (s p : String) : Bool :=
  p.data.isPrefixOf s.data

/-- Split a character list at every separator character (Python
`str.split(sep)` semantics: n separators yield n+1 pieces, empty pieces
kept). -/
def splitOnPred (p : Char → Bool) : List Char → List (List Char)
  | [] => [[]]
  | c :: rest =>
    if p c then
      [] :: splitOnPred p rest
    else
      match splitOnPred p rest with
      | h :: t => (c :: h) :: t
      | [] => [[c]]

/-- Python `s.split(sep)` for a one-character separator. -/
def pySplitChar (sep : Char) (s : String) : List String :=
  (splitOnPred (fun c => c == sep) s.data).map String.mk

/-- Python `str.split()` with no argument: split on whitespace,
dropping empty pieces. -/
def pySplitWhitespace (s : String) : List String :=
  ((splitOnPred Char.isWhitespace s.data).map String.mk).filter (fun w => w ≠ "")

/-- Python `sep.join(pieces)`. -/
def pyJoin (sep : String) (pieces : List String) : String :=
  String.mk (List.intercalate sep.data (pieces.map String.data))

/-- Parsed oracle response: the three fields of
`AIService._parse_generated_code`'s result dictionary. -/
structure GenCode where
  backend_code : String
  frontend_code : String
  explanation : String
deriving DecidableEq

/-! ## Sandboxed executor (`services/execution_service.py`) -/

/-- Externally observed behaviour of the spawned child process: either it
ran to completion (return code, stdout parsed as JSON when valid, captured
stderr with `none` for empty) or the 30-second wall-clock timeout elapsed
first. -/
inductive SubprocOutcome
  | completed (returncode : Int) (stdout_payload : Option Payload) (stderr : Option String)
  | timedOut
deriving DecidableEq

/-- The hard wall-clock timeout passed to `asyncio.wait_for` in
`ExecutionService.execute_block` (`timeout=30.0`). -/
def EXECUTION_TIMEOUT_SECONDS : Int := 30

deriving instance DecidableEq for Except

/-- Parent-side classification of one subprocess outcome: the value
returned or exception message raised by `ExecutionService.execute_block`,
together with the process-control calls (kill/terminate) the parent issues
on that path. -/
structure ExecClassification where
  result : Except String Payload
  killActions : List String
deriving DecidableEq

/-- `ExecutionService.execute_block`, parent side, from the source:
* `asyncio.TimeoutError` is caught by its own clause, which only raises
  `Exception("Block execution timed out")`; that raise, occurring inside
  an except handler, is not re-wrapped by the later generic clause.  The
  handler contains no `process.kill()`/`terminate()` call (cancelling
  `communicate()` does not signal the child), so `killActions = []`.
* A non-zero return code raises
  `Exception(f"Block execution failed: {stderr or fallback}")` inside the
  try body, which the generic clause re-wraps as `Execution error: …`.
* Return code zero with stdout that is not valid JSON raises
  `Exception("Block did not return valid JSON")`, likewise re-wrapped.
* Otherwise the parsed JSON payload is returned. -/
def classify_outcome : SubprocOutcome → ExecClassification
  | .timedOut =>
      { result := .error "Block execution timed out", killActions := [] }
  | .completed rc out err =>
      if rc ≠ 0 then
        let error_msg := match err with
          | some s => s
          | none => "Unknown execution error"
        { result := .error (s!"Execution error: Block execution failed: {error_msg}"),
          killActions := [] }
      else
        match out with
        | some p => { result := .ok p, killActions := [] }
        | none =>
            { result := .error "Execution error: Block did not return valid JSON",
              killActions := [] }

/-- The fixed allowlist `ALLOWED_PACKAGES` from
`ExecutionService._wrap_code`. -/
def ALLOWED_PACKAGES : List String :=
  ["requests", "httpx", "beautifulsoup4", "bs4", "pandas", "numpy",
   "dateutil", "jmespath", "json", "datetime", "time", "urllib", "re",
   "math", "statistics", "collections", "itertools", "functools",
   "typing", "asyncio", "aiohttp"]

/-- Result of one import attempt inside the child process: the module is
returned, or an `ImportError` is raised, or some other exception is
raised. -/
inductive ImportOutcome
  | ok
  | importError (msg : String)
  | otherError (msg : String)
deriving DecidableEq

/-- A single-quote character, used to reproduce source error messages. -/
def sq : String := String.singleton (Char.ofNat 39)

/-- `restricted_import` from the wrapper emitted by
`ExecutionService._wrap_code`: for a top-level module name outside
`ALLOWED_PACKAGES` that does not start with an underscore, the
original import is attempted anyway; only when that attempt raises
`ImportError` is it re-raised as `ImportError(f"Package NAME is not
allowed")`.  Allowlisted or underscore-prefixed names go straight to
the original import. -/
def restricted_import (original_import : String → ImportOutcome) (name : String) :
    ImportOutcome :=
  let base_name := (pySplitChar '.' name).headD ""
  if base_name ∉ ALLOWED_PACKAGES ∧ ¬ pyStartsWith base_name "_" then
    match original_import name with
    | .importError _ => .importError (s!"Package {sq}{name}{sq} is not allowed")
    | r => r
  else
    original_import name

/-! ## Oracle-output parser (`AIService._parse_generated_code`) -/

/-- The parser's `current_section` values. -/
inductive Sect
  | backend
  | frontend
  | explanation
deriving DecidableEq

/-- Loop state of `_parse_generated_code`: the result dictionary under
construction, `current_section` and `current_code`. -/
structure ParseState where
  result : GenCode
  current_section : Option Sect
  current_code : List String
deriving DecidableEq

/-- The fenced-code-close branch of the parser loop: when both
`current_code` and `current_section` are non-empty, store the joined code
under the backend/frontend field selected by `current_section`; in every
case `current_code` is reset (the source performs the reset once after
the inner `if`; here it is written in each branch). -/
def flush_code (st : ParseState) : ParseState :=
  if st.current_code ≠ [] ∧ st.current_section ≠ none then
    match st.current_section with
    | some Sect.backend =>
        { st with
          result := { st.result with
            backend_code := pyJoin "\n" st.current_code },
          current_code := [] }
    | some Sect.frontend =>
        { st with
          result := { st.result with
            frontend_code := pyJoin "\n" st.current_code },
          current_code := [] }
    | _ => { st with current_code := [] }
  else
    { st with current_code := [] }

/-- One iteration of the `for line in lines` loop of
`_parse_generated_code`, translated clause for clause. -/
def parse_line (st : ParseState) (line : String) : ParseState :=
  if pyStrip line = "## Backend Code" then
    { st with current_section := some .backend, current_code := [] }
  else if pyStrip line = "## Frontend Code" then
    { st with current_section := some .frontend, current_code := [] }
  else if pyStrip line = "## Explanation" then
    { st with current_section := some .explanation, current_code := [] }
  else if pyStartsWith (pyStrip line) "```" then
    flush_code st
  else if st.current_section = some .explanation then
    { st with current_code := st.current_code ++ [line] }
  else if st.current_section ≠ none ∧ ¬ pyStartsWith (pyStrip line) "```" then
    { st with current_code := st.current_code ++ [line] }
  else
    st

/-- `AIService._parse_generated_code`: fold the per-line step over
`content.split('\n')` starting from the empty result, then flush a
trailing explanation section. -/
def parse_generated_code (content : String) : GenCode :=
  let st := (pySplitChar '\n' content).foldl parse_line
    { result := ⟨"", "", ""⟩, current_section := none, current_code := [] }
  if st.current_section = some .explanation ∧ st.current_code ≠ [] then
    { st.result with explanation := pyStrip (pyJoin "\n" st.current_code) }
  else
    st.result

/-- `true` when no line of `content` strips to the given section header,
i.e. the labeled section is missing from the oracle response. -/
def sectionMissing (content header : String) : Bool :=
  (pySplitChar '\n' content).all (fun line => pyStrip line != header)

/-! ## Data model (`models/block.py`) and the session -/

/-- One `blocks` row.  `layout_data` is opaque JSON, modelled as a number;
the source's default layout dictionary is modelled as `0`.  `created_at`
is never read by the core and is omitted. -/
structure BlockRow where
  id : Nat
  user_prompt : String
  title : String
  current_version : Nat
  refresh_interval : Int
  layout_data : Nat
  status : String
  updated_at : Int
deriving DecidableEq

/-- One `block_versions` row (column default `status="active"`). -/
structure VersionRow where
  block_id : Nat
  version : Nat
  backend_code : String
  frontend_code : String
  ai_explanation : String
  status : String
deriving DecidableEq

/-- One `block_data` cache row. -/
structure DataRow where
  block_id : Nat
  data : Payload
  fetched_at : Int
  expires_at : Option Int
deriving DecidableEq

/-- One `execution_logs` row (`execution_time_ms` is never written by the
core and is omitted). -/
structure LogRow where
  block_id : Nat
  version : Nat
  execution_type : String
  success : Bool
  error_message : Option String
  created_at : Int
deriving DecidableEq

/-- The relational store: row lists in insertion order. -/
structure Store where
  blocks : List BlockRow
  versions : List VersionRow
  dataRows : List DataRow
  logs : List LogRow
deriving DecidableEq

/-- A database session: the live store seen by queries plus the snapshot
taken at the last `db.commit()` (the source never rolls back). -/
structure Session where
  store : Store
  committed : Store
deriving DecidableEq

/-- `db.query(Block).filter(Block.id == block_id).first()`. -/
def getBlock (st : Store) (block_id : Nat) : Option BlockRow :=
  st.blocks.find? (fun b => b.id == block_id)

/-- Mutating the fields of an already-loaded block row in place. -/
def setBlock (st : Store) (b : BlockRow) : Store :=
  { st with blocks := st.blocks.map (fun x => if x.id == b.id then b else x) }

/-- `db.add` of a version row. -/
def addVersion (st : Store) (v : VersionRow) : Store :=
  { st with versions := st.versions ++ [v] }

/-- `db.add` of a cache row. -/
def addDataRow (st : Store) (d : DataRow) : Store :=
  { st with dataRows := st.dataRows ++ [d] }

/-- `db.add` of an execution-log row. -/
def addLog (st : Store) (l : LogRow) : Store :=
  { st with logs := st.logs ++ [l] }

/-- `db.query(BlockVersion).filter(block_id, version).first()`. -/
def getVersion (st : Store) (block_id version : Nat) : Option VersionRow :=
  st.versions.find? (fun v => v.block_id == block_id && v.version == version)

/-- `db.query(ExecutionLog).filter(block_id, success == False)
.order_by(created_at.desc()).first()`; among equal timestamps the
latest-inserted row wins. -/
def latestFailure (st : Store) (block_id : Nat) : Option LogRow :=
  (st.logs.filter (fun l => l.block_id == block_id && l.success == false)).foldl
    (fun acc l =>
      match acc with
      | none => some l
      | some a => if a.created_at ≤ l.created_at then some l else some a) none

/-- `db.query(BlockData).filter(block_id).order_by(fetched_at.desc())
.first()`; among equal timestamps the latest-inserted row wins. -/
def latestDataRow (st : Store) (block_id : Nat) : Option DataRow :=
  (st.dataRows.filter (fun d => d.block_id == block_id)).foldl
    (fun acc d =>
      match acc with
      | none => some d
      | some a => if a.fetched_at ≤ d.fetched_at then some d else some a) none

/-- The healing-throttle count from `BlockService.refresh_block_data`:
failure logs of any execution type for this block whose `created_at` lies
strictly inside the trailing one-hour window. -/
def recentFailureCount (st : Store) (block_id : Nat) (now : Int) : Nat :=
  (st.logs.filter (fun l =>
    l.block_id == block_id && l.success == false &&
      decide (l.created_at > now - 3600))).length

/-! ## External world and effects -/

/-- Observable external effects of one orchestrator operation.
`exec` records one `ExecutionService.execute_block` run with its outcome;
`oracleGen`/`oracleHeal` record the two oracle entry points;
`healCall` is instrumentation marking entry into
`BlockService.heal_block` (used to state the throttle bound), not a
source-level action of its own. -/
inductive Eff
  | exec (block_id version : Nat) (ok : Bool)
  | oracleGen
  | oracleHeal
  | healCall (block_id : Nat)
deriving DecidableEq

/-- The external world: the clock, the streams of subprocess outcomes and
oracle responses (consumed in program order via the cursors), and the set
of per-block per-version artifact directories on disk. -/
structure World where
  now : Int
  execs : Nat → SubprocOutcome
  execIdx : Nat
  gens : Nat → Except String GenCode
  genIdx : Nat
  heals : Nat → Except String GenCode
  healIdx : Nat
  fs : List (Nat × Nat)

/-- Result of one orchestrator operation: the returned value or raised
exception message, the session, the world, and the effect trace. -/
structure OpResult (α : Type) where
  res : Except String α
  sess : Session
  world : World
  effs : List Eff

/-- `true` on the non-raising constructor. -/
def exceptOk {α : Type} : Except String α → Bool
  | .ok _ => true
  | .error _ => false

/-- `ExecutionService.execute_block` as consumed by the orchestrator:
`os.makedirs` creates the per-block per-version directory (idempotently)
before spawning, for successes and failures alike, and the next subprocess
outcome is classified parent-side.  Nothing in the source ever calls
`cleanup_old_versions`. -/
def execute_block (w : World) (block_id version : Nat) (_code : String) :
    Except String Payload × World × List Eff :=
  let c := classify_outcome (w.execs w.execIdx)
  let fs1 := if (block_id, version) ∈ w.fs then w.fs else w.fs ++ [(block_id, version)]
  (c.result, { w with execIdx := w.execIdx + 1, fs := fs1 },
   [Eff.exec block_id version (exceptOk c.result)])

/-- Default of the `keep_versions` parameter of
`ExecutionService.cleanup_old_versions`. -/
def KEEP_VERSIONS_DEFAULT : Nat := 5

/-- Insertion into a descending-sorted list, preserving the order. -/
def insertDesc (a : Nat) : List Nat → List Nat
  | [] => [a]
  | b :: bs => if b < a then a :: b :: bs else b :: insertDesc a bs

/-- Descending sort, modelling Python's `list.sort(reverse=True)` on the
version numbers (the keys are distinct, so stability is irrelevant). -/
def sortDesc : List Nat → List Nat
  | [] => []
  | a :: rest => insertDesc a (sortDesc rest)

/-- `ExecutionService.cleanup_old_versions`: list this block's version
directories, sort by version number descending, and best-effort-delete
all but the first `keep_versions`; a deletion that fails (`rmFails`) is
swallowed and the directory simply remains. -/
def cleanup_old_versions (rmFails : Nat × Nat → Bool) (fs : List (Nat × Nat))
    (block_id keep_versions : Nat) : List (Nat × Nat) :=
  let version_dirs :=
    sortDesc ((fs.filter (fun p => p.1 == block_id)).map Prod.snd)
  let to_remove := version_dirs.drop keep_versions
  fs.filter (fun p => !(p.1 == block_id && to_remove.contains p.2 && !rmFails p))

/-- `AIService.generate_block_code`: consume the next generation-oracle
response; a failing call is re-raised as `AI code generation failed: …`.
(The oracle's raw text and its parsing are modelled separately by
`parse_generated_code`; the stream carries the parsed record.) -/
def generate_block_code (w : World) : Except String GenCode × World × List Eff :=
  let r := match w.gens w.genIdx with
    | .ok g => Except.ok g
    | .error e => Except.error (s!"AI code generation failed: {e}")
  (r, { w with genIdx := w.genIdx + 1 }, [Eff.oracleGen])

/-- `AIService.heal_block` (renamed to avoid clashing with the
orchestrator's `heal_block`): consume the next healing-oracle response; a
failing call is re-raised as `AI healing failed: …`. -/
def ai_heal_block (w : World) : Except String GenCode × World × List Eff :=
  let r := match w.heals w.healIdx with
    | .ok g => Except.ok g
    | .error e => Except.error (s!"AI healing failed: {e}")
  (r, { w with healIdx := w.healIdx + 1 }, [Eff.oracleHeal])

/-! ## Lifecycle orchestrator (`services/block_service.py`) -/

/-- Python's `str.title()` over a character list: the first letter of
each alphabetic run is upper-cased, the rest lower-cased. -/
def pyTitleAux : List Char → Bool → List Char
  | [], _ => []
  | c :: cs, prevAlpha =>
    if c.isAlpha then
      (if prevAlpha then c.toLower else c.toUpper) :: pyTitleAux cs true
    else
      c :: pyTitleAux cs false

/-- `BlockService._generate_title`: first four whitespace-separated words
of the stripped prompt, joined and title-cased. -/
def generate_title (prompt : String) : String :=
  let words := (pySplitWhitespace (pyStrip prompt)).take 4
  String.mk (pyTitleAux (pyJoin " " words).data false)

/-- `BlockService.create_block`.  An oracle failure propagates before any
row is written.  Otherwise the block row (autoincrement id, defaults
`current_version=1`, `status="active"`) and version 1 are created, the
code is test-executed, `status` is set from the outcome (with a `fetch`
failure log on error), and everything commits; the block is returned in
both cases.  Note the Python `title or generated` treats an empty title
as absent. -/
def create_block (s : Session) (w : World) (user_prompt : String)
    (title : Option String) (refresh_interval : Int) : OpResult BlockRow :=
  match generate_block_code w with
  | (.error e, w1, effs) => { res := .error e, sess := s, world := w1, effs := effs }
  | (.ok gen, w1, effs) =>
    let block_id := s.store.blocks.length + 1
    let titleVal := match title with
      | some t => if t = "" then generate_title user_prompt else t
      | none => generate_title user_prompt
    let block : BlockRow :=
      { id := block_id, user_prompt := user_prompt, title := titleVal,
        current_version := 1, refresh_interval := refresh_interval,
        layout_data := 0, status := "active", updated_at := w.now }
    let st1 := { s.store with blocks := s.store.blocks ++ [block] }
    let st2 := addVersion st1
      { block_id := block_id, version := 1, backend_code := gen.backend_code,
        frontend_code := gen.frontend_code, ai_explanation := gen.explanation,
        status := "active" }
    match execute_block w1 block_id 1 gen.backend_code with
    | (.ok _, w2, effs2) =>
      let b1 := { block with status := "active" }
      let st3 := setBlock st2 b1
      { res := .ok b1, sess := { store := st3, committed := st3 }, world := w2,
        effs := effs ++ effs2 }
    | (.error e, w2, effs2) =>
      let b1 := { block with status := "error" }
      let st3 := addLog (setBlock st2 b1)
        { block_id := block_id, version := 1, execution_type := "fetch",
          success := false, error_message := some e, created_at := w.now }
      { res := .ok b1, sess := { store := st3, committed := st3 }, world := w2,
        effs := effs ++ effs2 }

/-- `BlockService.update_block`.  A missing block raises `ValueError`;
an oracle failure propagates with nothing written.  Otherwise a version
row numbered `current_version + 1` is added (the previous version row is
read only to build oracle context), the new code is test-executed, and on
success `current_version` advances while on failure only `status="error"`
and a `fetch` failure log tagged with the new number are written; both
branches commit and return the block. -/
def update_block (s : Session) (w : World) (block_id : Nat) (_user_prompt : String) :
    OpResult BlockRow :=
  match getBlock s.store block_id with
  | none =>
    { res := .error (s!"Block {block_id} not found"), sess := s, world := w, effs := [] }
  | some block =>
    match generate_block_code w with
    | (.error e, w1, effs) => { res := .error e, sess := s, world := w1, effs := effs }
    | (.ok gen, w1, effs) =>
      let new_version := block.current_version + 1
      let st1 := addVersion s.store
        { block_id := block.id, version := new_version, backend_code := gen.backend_code,
          frontend_code := gen.frontend_code, ai_explanation := gen.explanation,
          status := "active" }
      match execute_block w1 block.id new_version gen.backend_code with
      | (.ok _, w2, effs2) =>
        let b1 := { block with current_version := new_version, status := "active",
                               updated_at := w.now }
        let st2 := setBlock st1 b1
        { res := .ok b1, sess := { store := st2, committed := st2 }, world := w2,
          effs := effs ++ effs2 }
      | (.error e, w2, effs2) =>
        let b1 := { block with status := "error", updated_at := w.now }
        let st2 := addLog (setBlock st1 b1)
          { block_id := block.id, version := new_version, execution_type := "fetch",
            success := false, error_message := some e, created_at := w.now }
        { res := .ok b1, sess := { store := st2, committed := st2 }, world := w2,
          effs := effs ++ effs2 }

/-- `BlockService.heal_block`.  A missing block raises `ValueError`, and a
missing current-version row or missing failure log raises the precondition
`ValueError`.  Otherwise every outcome commits and returns the block:
* healing-oracle failure → only a `heal` failure log tagged with the
  pre-heal `current_version`;
* oracle success but executor failure → the healed version row (added
  before the executor raised) stays, plus a `heal` failure log tagged with
  the pre-heal `current_version`; the block's fields are untouched;
* executor success → `current_version` advances, `status="active"`, and a
  `heal` success log tagged with the new version. -/
def heal_block (s : Session) (w : World) (block_id : Nat) : OpResult BlockRow :=
  match getBlock s.store block_id with
  | none =>
    { res := .error (s!"Block {block_id} not found"), sess := s, world := w,
      effs := [Eff.healCall block_id] }
  | some block =>
    match getVersion s.store block_id block.current_version, latestFailure s.store block_id with
    | some _, some _ =>
      match ai_heal_block w with
      | (.error e, w1, effs) =>
        let st1 := addLog s.store
          { block_id := block.id, version := block.current_version, execution_type := "heal",
            success := false, error_message := some e, created_at := w.now }
        { res := .ok block, sess := { store := st1, committed := st1 }, world := w1,
          effs := Eff.healCall block_id :: effs }
      | (.ok healed, w1, effs) =>
        let new_version := block.current_version + 1
        let st1 := addVersion s.store
          { block_id := block.id, version := new_version,
            backend_code := healed.backend_code, frontend_code := healed.frontend_code,
            ai_explanation := s!"Auto-healed: {healed.explanation}", status := "active" }
        match execute_block w1 block.id new_version healed.backend_code with
        | (.ok _, w2, effs2) =>
          let b1 := { block with current_version := new_version, status := "active",
                                 updated_at := w.now }
          let st2 := addLog (setBlock st1 b1)
            { block_id := block.id, version := new_version, execution_type := "heal",
              success := true, error_message := none, created_at := w.now }
          { res := .ok b1, sess := { store := st2, committed := st2 }, world := w2,
            effs := Eff.healCall block_id :: (effs ++ effs2) }
        | (.error e, w2, effs2) =>
          let st2 := addLog st1
            { block_id := block.id, version := block.current_version, execution_type := "heal",
              success := false, error_message := some e, created_at := w.now }
          { res := .ok block, sess := { store := st2, committed := st2 }, world := w2,
            effs := Eff.healCall block_id :: (effs ++ effs2) }
    | _, _ =>
      { res := .error "Cannot heal block: missing version or error information", sess := s,
        world := w, effs := [Eff.healCall block_id] }

/-- `BlockService.refresh_block_data`.  The `fuel` argument models
Python's call stack for the retry-after-heal recursion; the recursion is
self-limiting at depth 2 (the retry's own failure log pushes the throttle
count past 1), so any fuel ≥ 2 yields the source behaviour.  On executor
failure the `fetch` failure log is written and committed first; then the
throttle counts the block's failure logs in the trailing hour, and only a
count ≤ 1 triggers `heal_block` plus one recursive retry inside a
`try/except: pass` before the original error is re-raised. -/
def refresh_block_data : Nat → Session → World → Nat → OpResult Payload
  | 0, s, w, _ => { res := .error "out of fuel", sess := s, world := w, effs := [] }
  | fuel + 1, s, w, block_id =>
    match getBlock s.store block_id with
    | none =>
      { res := .error (s!"Block {block_id} not found"), sess := s, world := w, effs := [] }
    | some block =>
      match getVersion s.store block_id block.current_version with
      | none =>
        { res := .error (s!"No version found for block {block_id}"), sess := s, world := w,
          effs := [] }
      | some current_version =>
        match execute_block w block.id block.current_version current_version.backend_code with
        | (.ok data, w1, effs) =>
          let st1 := addLog (addDataRow s.store
            { block_id := block.id, data := data, fetched_at := w.now,
              expires_at := some (w.now + block.refresh_interval) })
            { block_id := block.id, version := block.current_version,
              execution_type := "fetch", success := true, error_message := none,
              created_at := w.now }
          { res := .ok data, sess := { store := st1, committed := st1 }, world := w1,
            effs := effs }
        | (.error e, w1, effs) =>
          let st1 := addLog s.store
            { block_id := block.id, version := block.current_version,
              execution_type := "fetch", success := false, error_message := some e,
              created_at := w.now }
          let s1 : Session := { store := st1, committed := st1 }
          let recent_errors := recentFailureCount s1.store block_id w.now
          if recent_errors ≤ 1 then
            let h := heal_block s1 w1 block_id
            match h.res with
            | .error _ =>
              { res := .error e, sess := h.sess, world := h.world, effs := effs ++ h.effs }
            | .ok _ =>
              let r := refresh_block_data fuel h.sess h.world block_id
              match r.res with
              | .ok d =>
                { res := .ok d, sess := r.sess, world := r.world,
                  effs := effs ++ h.effs ++ r.effs }
              | .error _ =>
                { res := .error e, sess := r.sess, world := r.world,
                  effs := effs ++ h.effs ++ r.effs }
          else
            { res := .error e, sess := s1, world := w1, effs := effs }

/-- `BlockService.get_blocks`: every block whose status is not
`"deleted"`. -/
def get_blocks (st : Store) : List BlockRow :=
  st.blocks.filter (fun b => b.status != "deleted")

/-- `BlockService.get_block`: point lookup by id, regardless of status. -/
def get_block (st : Store) (block_id : Nat) : Option BlockRow :=
  getBlock st block_id

/-- `BlockService.delete_block`: soft delete via `status="deleted"`,
committed; `false` when the block does not exist. -/
def delete_block (s : Session) (block_id : Nat) : Bool × Session :=
  match getBlock s.store block_id with
  | some block =>
    let st1 := setBlock s.store { block with status := "deleted" }
    (true, { store := st1, committed := st1 })
  | none => (false, s)

/-- `BlockService.update_block_layout`: pure metadata mutation. -/
def update_block_layout (s : Session) (w : World) (block_id : Nat) (layout_data : Nat) :
    Bool × Session :=
  match getBlock s.store block_id with
  | some block =>
    let st1 := setBlock s.store { block with layout_data := layout_data, updated_at := w.now }
    (true, { store := st1, committed := st1 })
  | none => (false, s)

/-! ## Data endpoints (`api/blocks.py`) -/

/-- `GET /blocks/{id}/data` (`get_block_data`): return the most recent
cache row tagged `cached=true` when one exists and is unexpired (a null
`expires_at` counts as unexpired, and expiry requires `now` strictly past
`expires_at`); otherwise fall through to `refresh_block_data` and tag the
fresh payload `cached=false`. -/
def get_block_data_endpoint (fuel : Nat) (s : Session) (w : World) (block_id : Nat) :
    OpResult (Payload × Bool) :=
  match latestDataRow s.store block_id with
  | none =>
    let r := refresh_block_data fuel s w block_id
    { res := r.res.map (fun d => (d, false)), sess := r.sess, world := r.world,
      effs := r.effs }
  | some cached_data =>
    let expired := match cached_data.expires_at with
      | some t => decide (w.now > t)
      | none => false
    if expired then
      let r := refresh_block_data fuel s w block_id
      { res := r.res.map (fun d => (d, false)), sess := r.sess, world := r.world,
        effs := r.effs }
    else
      { res := .ok (cached_data.data, true), sess := s, world := w, effs := [] }

/-- `POST /blocks/{id}/refresh` (`refresh_block`): unconditionally calls
`refresh_block_data`; no cache row is consulted. -/
def refresh_block_endpoint (fuel : Nat) (s : Session) (w : World) (block_id : Nat) :
    OpResult Payload :=
  refresh_block_data fuel s w block_id

/-- `true` on a `healCall` effect. -/
def isHealCallEff : Eff → Bool
  | Eff.healCall _ => true
  | _ => false

/-- `true` on an `exec` effect. -/
def isExecEff : Eff → Bool
  | Eff.exec _ _ _ => true
  | _ => false

/-- Number of `heal_block` invocations recorded in an effect trace. -/
def countHealCalls (effs : List Eff) : Nat :=
  (effs.filter isHealCallEff).length

/-- Number of executor runs recorded in an effect trace. -/
def countExecs (effs : List Eff) : Nat :=
  (effs.filter isExecEff).length

/-! ## Concrete instances used by witnesses and counterexamples -/

/-- A block row in `error` status at version 1, used as heal target. -/
def wBlock : BlockRow :=
  { id := 1, user_prompt := "p", title := "T", current_version := 1,
    refresh_interval := 3600, layout_data := 0, status := "error", updated_at := 0 }

/-- The version row pointed at by `wBlock.current_version`. -/
def wVersion : VersionRow :=
  { block_id := 1, version := 1, backend_code := "bc", frontend_code := "fc",
    ai_explanation := "x", status := "active" }

/-- A committed fetch-failure log for `wBlock`. -/
def wFailLog : LogRow :=
  { block_id := 1, version := 1, execution_type := "fetch", success := false,
    error_message := some "boom", created_at := 100 }

/-- A store satisfying the heal preconditions for block 1. -/
def healStore : Store :=
  { blocks := [wBlock], versions := [wVersion], dataRows := [], logs := [wFailLog] }

/-- The session over `healStore`, fully committed. -/
def healSession : Session :=
  { store := healStore, committed := healStore }

/-- A world whose healing oracle is down and whose executor times out. -/
def healWorld : World :=
  { now := 200, execs := fun _ => SubprocOutcome.timedOut, execIdx := 0,
    gens := fun _ => Except.error "nogen", genIdx := 0,
    heals := fun _ => Except.error "AI down", healIdx := 0, fs := [] }

/-- A store with block 1 and its version but no failure history, used to
exercise the first-failure heal path. -/
def throttleStore : Store :=
  { blocks := [wBlock], versions := [wVersion], dataRows := [], logs := [] }

/-- The session over `throttleStore`, fully committed. -/
def throttleSession : Session :=
  { store := throttleStore, committed := throttleStore }

/-- A world where the oracle and the executor always succeed. -/
def okWorld : World :=
  { now := 200, execs := fun _ => SubprocOutcome.completed 0 (some 7) none, execIdx := 0,
    gens := fun _ => Except.ok ⟨"b", "f", "x"⟩, genIdx := 0,
    heals := fun _ => Except.ok ⟨"hb", "hf", "hx"⟩, healIdx := 0, fs := [] }

/-- A fresh cache row for block 1 (expires at 500, after `okWorld.now`). -/
def freshCacheRow : DataRow :=
  { block_id := 1, data := 42, fetched_at := 150, expires_at := some 500 }

/-- `throttleStore` plus the fresh cache row. -/
def cacheStore : Store :=
  { blocks := [wBlock], versions := [wVersion], dataRows := [freshCacheRow], logs := [] }

/-- The session over `cacheStore`, fully committed. -/
def cacheSession : Session :=
  { store := cacheStore, committed := cacheStore }

/-- The empty store. -/
def emptyStore : Store :=
  { blocks := [], versions := [], dataRows := [], logs := [] }

/-- The session over the empty store. -/
def emptySession : Session :=
  { store := emptyStore, committed := emptyStore }

/-- A world whose generation oracle always succeeds and whose executor
succeeds on its first run (the one inside Create) and fails on every later
run. -/
def c4World : World :=
  { now := 200,
    execs := fun i => if i == 0 then SubprocOutcome.completed 0 (some 7) none
             else SubprocOutcome.completed 1 none (some "boom"),
    execIdx := 0,
    gens := fun _ => Except.ok ⟨"b", "f", "x"⟩, genIdx := 0,
    heals := fun _ => Except.ok ⟨"hb", "hf", "hx"⟩, healIdx := 0, fs := [] }

/-- The version-number column of block 1's `block_versions` rows after the
trace Create (executor ok) → Update (executor fails) → Update, run from
the empty store under `c4World`. -/
def c4VersionNumbers : List Nat :=
  let r1 := create_block emptySession c4World "p" (some "T") 3600
  let r2 := update_block r1.sess r1.world 1 "q"
  let r3 := update_block r2.sess r2.world 1 "r"
  (r3.sess.store.versions.filter (fun v => v.block_id == 1)).map (fun v => v.version)

/-- The pipeline of C7's premise: Create plus five Updates for block 1,
every executor run succeeding, from the empty store under `okWorld`. -/
def c7Run : OpResult BlockRow :=
  let r1 := create_block emptySession okWorld "p" (some "T") 3600
  let r2 := update_block r1.sess r1.world 1 "u1"
  let r3 := update_block r2.sess r2.world 1 "u2"
  let r4 := update_block r3.sess r3.world 1 "u3"
  let r5 := update_block r4.sess r4.world 1 "u4"
  update_block r5.sess r5.world 1 "u5"

/-- A sample block row in `error` status. -/
def sampleBlock : BlockRow :=
  { id := 1, user_prompt := "p", title := "t", current_version := 1,
    refresh_interval := 3600, layout_data := 0, status := "error", updated_at := 0 }

/-- A store holding only `sampleBlock`. -/
def sampleStore : Store :=
  { blocks := [sampleBlock], versions := [], dataRows := [], logs := [] }

/-! ## Helper lemmas -/

theorem flush_code_explanation_eq (st : ParseState) :
    (flush_code st).result.explanation = st.result.explanation := by
  unfold flush_code
  split
  · split <;> rfl
  · rfl

theorem flush_code_section_eq (st : ParseState) :
    (flush_code st).current_section = st.current_section := by
  unfold flush_code
  split
  · split <;> rfl
  · rfl

theorem flush_code_backend (st : ParseState)
    (hsec : st.current_section ≠ some Sect.backend) :
    (flush_code st).result.backend_code = st.result.backend_code := by
  unfold flush_code
  split
  · split <;> simp_all
  · rfl

theorem flush_code_frontend (st : ParseState)
    (hsec : st.current_section ≠ some Sect.frontend) :
    (flush_code st).result.frontend_code = st.result.frontend_code := by
  unfold flush_code
  split
  · split <;> simp_all
  · rfl

theorem parse_line_explanation_eq (st : ParseState) (line : String) :
    (parse_line st line).result.explanation = st.result.explanation := by
  unfold parse_line
  by_cases h1 : pyStrip line = "## Backend Code"
  · rw [if_pos h1]
  rw [if_neg h1]
  by_cases h2 : pyStrip line = "## Frontend Code"
  · rw [if_pos h2]
  rw [if_neg h2]
  by_cases h3 : pyStrip line = "## Explanation"
  · rw [if_pos h3]
  rw [if_neg h3]
  by_cases h4 : pyStartsWith (pyStrip line) "```"
  · rw [if_pos h4]
    exact flush_code_explanation_eq st
  rw [if_neg h4]
  by_cases h5 : st.current_section = some Sect.explanation
  · rw [if_pos h5]
  rw [if_neg h5]
  by_cases h6 : st.current_section ≠ none ∧ ¬ pyStartsWith (pyStrip line) "```"
  · rw [if_pos h6]
  · rw [if_neg h6]

theorem parse_line_backend_inv (st : ParseState) (line : String)
    (hline : pyStrip line ≠ "## Backend Code")
    (hsec : st.current_section ≠ some Sect.backend) :
    (parse_line st line).current_section ≠ some Sect.backend ∧
      (parse_line st line).result.backend_code = st.result.backend_code := by
  unfold parse_line
  rw [if_neg hline]
  by_cases h2 : pyStrip line = "## Frontend Code"
  · rw [if_pos h2]
    exact ⟨by simp, rfl⟩
  rw [if_neg h2]
  by_cases h3 : pyStrip line = "## Explanation"
  · rw [if_pos h3]
    exact ⟨by simp, rfl⟩
  rw [if_neg h3]
  by_cases h4 : pyStartsWith (pyStrip line) "```"
  · rw [if_pos h4]
    refine ⟨?_, flush_code_backend st hsec⟩
    rw [flush_code_section_eq st]
    exact hsec
  rw [if_neg h4]
  by_cases h5 : st.current_section = some Sect.explanation
  · rw [if_pos h5]
    exact ⟨hsec, rfl⟩
  rw [if_neg h5]
  by_cases h6 : st.current_section ≠ none ∧ ¬ pyStartsWith (pyStrip line) "```"
  · rw [if_pos h6]
    exact ⟨hsec, rfl⟩
  · rw [if_neg h6]
    exact ⟨hsec, rfl⟩

theorem parse_line_frontend_inv (st : ParseState) (line : String)
    (hline : pyStrip line ≠ "## Frontend Code")
    (hsec : st.current_section ≠ some Sect.frontend) :
    (parse_line st line).current_section ≠ some Sect.frontend ∧
      (parse_line st line).result.frontend_code = st.result.frontend_code := by
  unfold parse_line
  by_cases h1 : pyStrip line = "## Backend Code"
  · rw [if_pos h1]
    exact ⟨by simp, rfl⟩
  rw [if_neg h1, if_neg hline]
  by_cases h3 : pyStrip line = "## Explanation"
  · rw [if_pos h3]
    exact ⟨by simp, rfl⟩
  rw [if_neg h3]
  by_cases h4 : pyStartsWith (pyStrip line) "```"
  · rw [if_pos h4]
    refine ⟨?_, flush_code_frontend st hsec⟩
    rw [flush_code_section_eq st]
    exact hsec
  rw [if_neg h4]
  by_cases h5 : st.current_section = some Sect.explanation
  · rw [if_pos h5]
    exact ⟨hsec, rfl⟩
  rw [if_neg h5]
  by_cases h6 : st.current_section ≠ none ∧ ¬ pyStartsWith (pyStrip line) "```"
  · rw [if_pos h6]
    exact ⟨hsec, rfl⟩
  · rw [if_neg h6]
    exact ⟨hsec, rfl⟩

theorem parse_line_explanation_inv (st : ParseState) (line : String)
    (hline : pyStrip line ≠ "## Explanation")
    (hsec : st.current_section ≠ some Sect.explanation) :
    (parse_line st line).current_section ≠ some Sect.explanation := by
  unfold parse_line
  by_cases h1 : pyStrip line = "## Backend Code"
  · rw [if_pos h1]
    simp
  rw [if_neg h1]
  by_cases h2 : pyStrip line = "## Frontend Code"
  · rw [if_pos h2]
    simp
  rw [if_neg h2, if_neg hline]
  by_cases h4 : pyStartsWith (pyStrip line) "```"
  · rw [if_pos h4]
    rw [flush_code_section_eq st]
    exact hsec
  rw [if_neg h4]
  by_cases h5 : st.current_section = some Sect.explanation
  · exact absurd h5 hsec
  rw [if_neg h5]
  by_cases h6 : st.current_section ≠ none ∧ ¬ pyStartsWith (pyStrip line) "```"
  · rw [if_pos h6]
    exact hsec
  · rw [if_neg h6]
    exact hsec

theorem foldl_backend_inv (lines : List String)
    (h : ∀ line ∈ lines, pyStrip line ≠ "## Backend Code") (st : ParseState)
    (hsec : st.current_section ≠ some Sect.backend) :
    (lines.foldl parse_line st).current_section ≠ some Sect.backend ∧
      (lines.foldl parse_line st).result.backend_code = st.result.backend_code := by
  induction lines generalizing st with
  | nil => exact ⟨hsec, rfl⟩
  | cons l ls ih =>
    have hl := parse_line_backend_inv st l (h l (by simp)) hsec
    have hr := ih (fun x hx => h x (by simp [hx])) (parse_line st l) hl.1
    exact ⟨hr.1, hr.2.trans hl.2⟩

theorem foldl_frontend_inv (lines : List String)
    (h : ∀ line ∈ lines, pyStrip line ≠ "## Frontend Code") (st : ParseState)
    (hsec : st.current_section ≠ some Sect.frontend) :
    (lines.foldl parse_line st).current_section ≠ some Sect.frontend ∧
      (lines.foldl parse_line st).result.frontend_code = st.result.frontend_code := by
  induction lines generalizing st with
  | nil => exact ⟨hsec, rfl⟩
  | cons l ls ih =>
    have hl := parse_line_frontend_inv st l (h l (by simp)) hsec
    have hr := ih (fun x hx => h x (by simp [hx])) (parse_line st l) hl.1
    exact ⟨hr.1, hr.2.trans hl.2⟩

theorem foldl_explanation_inv (lines : List String)
    (h : ∀ line ∈ lines, pyStrip line ≠ "## Explanation") (st : ParseState)
    (hsec : st.current_section ≠ some Sect.explanation) :
    (lines.foldl parse_line st).current_section ≠ some Sect.explanation ∧
      (lines.foldl parse_line st).result.explanation = st.result.explanation := by
  induction lines generalizing st with
  | nil => exact ⟨hsec, rfl⟩
  | cons l ls ih =>
    have hl := parse_line_explanation_inv st l (h l (by simp)) hsec
    have hr := ih (fun x hx => h x (by simp [hx])) (parse_line st l) hl
    exact ⟨hr.1, hr.2.trans (parse_line_explanation_eq st l)⟩

theorem sectionMissing_forall {content header : String}
    (h : sectionMissing content header = true) :
    ∀ line ∈ pySplitChar '\n' content, pyStrip line ≠ header := by
  intro line hline
  have := List.all_eq_true.mp h line hline
  simpa using this

theorem find_map_setBlock (l : List BlockRow) (bid : Nat) (b0 b1 : BlockRow)
    (h : l.find? (fun b => b.id == bid) = some b0) (hid : b1.id = b0.id) :
    (l.map (fun x => if x.id == b1.id then b1 else x)).find? (fun b => b.id == bid) =
      some b1 := by
  have hb0 : b0.id = bid := by
    have := List.find?_some h
    simpa using this
  induction l with
  | nil => simp at h
  | cons x xs ih =>
    rw [List.map_cons]
    by_cases hx : x.id = bid
    · have hx0 : x = b0 := by
        rw [List.find?_cons_of_pos] at h
        · exact Option.some.inj h
        · simpa using hx
      subst hx0
      rw [if_pos (by simpa using hid.symm)]
      rw [List.find?_cons_of_pos]
      simpa using hid.trans hb0
    · have h' : xs.find? (fun b => b.id == bid) = some b0 := by
        rw [List.find?_cons_of_neg] at h
        · exact h
        · simpa using hx
      by_cases hxb : x.id = b1.id
      · exact absurd (hxb.trans (hid.trans hb0)) hx
      · rw [if_neg (by simpa using hxb)]
        rw [List.find?_cons_of_neg]
        · exact ih h'
        · simpa using hx

theorem not_mem_get_blocks_of_deleted (st : Store) (b : BlockRow)
    (h : b.status = "deleted") : b ∉ get_blocks st := by
  intro hmem
  have := (List.mem_filter.mp hmem).2
  simp [h] at this

theorem find?_append_some {α : Type} (p : α → Bool) (l1 l2 : List α) (x : α)
    (h : l1.find? p = some x) : (l1 ++ l2).find? p = some x := by
  induction l1 with
  | nil => simp at h
  | cons a as ih =>
    by_cases ha : p a
    · rw [List.find?_cons_of_pos _ ha] at h
      rw [List.cons_append, List.find?_cons_of_pos _ ha]
      exact h
    · rw [List.find?_cons_of_neg _ ha] at h
      rw [List.cons_append, List.find?_cons_of_neg _ ha]
      exact ih h

theorem foldl_latest_isSome (xs : List LogRow) (acc : Option LogRow)
    (h : acc.isSome ∨ xs ≠ []) :
    (xs.foldl (fun acc l =>
      match acc with
      | none => some l
      | some a => if a.created_at ≤ l.created_at then some l else some a) acc).isSome := by
  induction xs generalizing acc with
  | nil =>
    rcases h with h | h
    · exact h
    · simp at h
  | cons x xs ih =>
    rw [List.foldl_cons]
    apply ih
    left
    rcases acc with _ | a
    · simp
    · simp only []
      split <;> simp

theorem latestFailure_isSome (st : Store) (bid : Nat) (l : LogRow)
    (hl : l ∈ st.logs) (hidb : l.block_id = bid) (hs : l.success = false) :
    (latestFailure st bid).isSome := by
  unfold latestFailure
  apply foldl_latest_isSome
  right
  intro hempty
  have hmem : l ∈ st.logs.filter (fun l => l.block_id == bid && l.success == false) :=
    List.mem_filter.mpr ⟨hl, by simp [hidb, hs]⟩
  rw [hempty] at hmem
  simp at hmem

theorem recentFailureCount_addLog (st : Store) (l : LogRow) (bid : Nat) (now : Int) :
    recentFailureCount (addLog st l) bid now =
      recentFailureCount st bid now +
        (if l.block_id == bid && l.success == false && decide (l.created_at > now - 3600)
          then 1 else 0) := by
  unfold recentFailureCount addLog
  rw [List.filter_append, List.length_append]
  congr 1
  split <;> simp_all

theorem recentFailureCount_pos (st : Store) (bid : Nat) (now : Int) (l : LogRow)
    (hl : l ∈ st.logs) (hidb : l.block_id = bid) (hs : l.success = false)
    (ht : l.created_at > now - 3600) :
    1 ≤ recentFailureCount st bid now := by
  unfold recentFailureCount
  have hmem : l ∈ st.logs.filter (fun l =>
      l.block_id == bid && l.success == false && decide (l.created_at > now - 3600)) :=
    List.mem_filter.mpr ⟨hl, by simp [hidb, hs, ht]⟩
  exact List.length_pos_of_mem hmem

theorem throttle_exceeded (st : Store) (bid : Nat) (now : Int) (l0 l2 : LogRow)
    (h0 : l0 ∈ st.logs) (h0b : l0.block_id = bid) (h0s : l0.success = false)
    (h0t : l0.created_at > now - 3600)
    (h2b : l2.block_id = bid) (h2s : l2.success = false) (h2t : l2.created_at > now - 3600) :
    ¬ recentFailureCount (addLog st l2) bid now ≤ 1 := by
  intro hle
  rw [recentFailureCount_addLog] at hle
  have h1 := recentFailureCount_pos st bid now l0 h0 h0b h0s h0t
  simp [h2b, h2s, h2t] at hle
  omega

theorem heal_spec_oracle_err (s : Session) (w : World) (bid : Nat) (block : BlockRow)
    (curv : VersionRow) (lerr : LogRow) (eh : String)
    (hb : getBlock s.store bid = some block)
    (hv : getVersion s.store bid block.current_version = some curv)
    (hle : latestFailure s.store bid = some lerr)
    (hhe : w.heals w.healIdx = Except.error eh) :
    heal_block s w bid =
      { res := Except.ok block,
        sess :=
          { store := addLog s.store
              { block_id := block.id, version := block.current_version,
                execution_type := "heal", success := false,
                error_message := some (s!"AI healing failed: {eh}"), created_at := w.now },
            committed := addLog s.store
              { block_id := block.id, version := block.current_version,
                execution_type := "heal", success := false,
                error_message := some (s!"AI healing failed: {eh}"), created_at := w.now } },
        world := { w with healIdx := w.healIdx + 1 },
        effs := [Eff.healCall bid, Eff.oracleHeal] } := by
  simp only [heal_block, hb, hv, hle, ai_heal_block, hhe]

theorem heal_spec_exec_ok (s : Session) (w : World) (bid : Nat) (block : BlockRow)
    (curv : VersionRow) (lerr : LogRow) (g : GenCode) (p : Payload)
    (hb : getBlock s.store bid = some block)
    (hv : getVersion s.store bid block.current_version = some curv)
    (hle : latestFailure s.store bid = some lerr)
    (hhe : w.heals w.healIdx = Except.ok g)
    (hcl : (classify_outcome (w.execs w.execIdx)).result = Except.ok p) :
    heal_block s w bid =
      { res := Except.ok { block with
          current_version := block.current_version + 1,
          status := "active", updated_at := w.now },
        sess :=
          { store := addLog (setBlock (addVersion s.store
              { block_id := block.id, version := block.current_version + 1,
                backend_code := g.backend_code, frontend_code := g.frontend_code,
                ai_explanation := s!"Auto-healed: {g.explanation}", status := "active" })
              { block with
                current_version := block.current_version + 1,
                status := "active", updated_at := w.now })
              { block_id := block.id, version := block.current_version + 1,
                execution_type := "heal", success := true, error_message := none,
                created_at := w.now },
            committed := addLog (setBlock (addVersion s.store
              { block_id := block.id, version := block.current_version + 1,
                backend_code := g.backend_code, frontend_code := g.frontend_code,
                ai_explanation := s!"Auto-healed: {g.explanation}", status := "active" })
              { block with
                current_version := block.current_version + 1,
                status := "active", updated_at := w.now })
              { block_id := block.id, version := block.current_version + 1,
                execution_type := "heal", success := true, error_message := none,
                created_at := w.now } },
        world := { w with
          healIdx := w.healIdx + 1, execIdx := w.execIdx + 1,
          fs := if (block.id, block.current_version + 1) ∈ w.fs then w.fs
                else w.fs ++ [(block.id, block.current_version + 1)] },
        effs := [Eff.healCall bid, Eff.oracleHeal,
                 Eff.exec block.id (block.current_version + 1) true] } := by
  simp only [heal_block, hb, hv, hle, ai_heal_block, hhe, execute_block, hcl, exceptOk]
  rfl

theorem heal_spec_exec_err (s : Session) (w : World) (bid : Nat) (block : BlockRow)
    (curv : VersionRow) (lerr : LogRow) (g : GenCode) (e : String)
    (hb : getBlock s.store bid = some block)
    (hv : getVersion s.store bid block.current_version = some curv)
    (hle : latestFailure s.store bid = some lerr)
    (hhe : w.heals w.healIdx = Except.ok g)
    (hcl : (classify_outcome (w.execs w.execIdx)).result = Except.error e) :
    heal_block s w bid =
      { res := Except.ok block,
        sess :=
          { store := addLog (addVersion s.store
              { block_id := block.id, version := block.current_version + 1,
                backend_code := g.backend_code, frontend_code := g.frontend_code,
                ai_explanation := s!"Auto-healed: {g.explanation}", status := "active" })
              { block_id := block.id, version := block.current_version,
                execution_type := "heal", success := false, error_message := some e,
                created_at := w.now },
            committed := addLog (addVersion s.store
              { block_id := block.id, version := block.current_version + 1,
                backend_code := g.backend_code, frontend_code := g.frontend_code,
                ai_explanation := s!"Auto-healed: {g.explanation}", status := "active" })
              { block_id := block.id, version := block.current_version,
                execution_type := "heal", success := false, error_message := some e,
                created_at := w.now } },
        world := { w with
          healIdx := w.healIdx + 1, execIdx := w.execIdx + 1,
          fs := if (block.id, block.current_version + 1) ∈ w.fs then w.fs
                else w.fs ++ [(block.id, block.current_version + 1)] },
        effs := [Eff.healCall bid, Eff.oracleHeal,
                 Eff.exec block.id (block.current_version + 1) false] } := by
  simp only [heal_block, hb, hv, hle, ai_heal_block, hhe, execute_block, hcl, exceptOk]
  rfl

theorem setBlock_no_match (l : List BlockRow) (b : BlockRow) (n : Nat)
    (h : ∀ x ∈ l, x.id ≠ n) :
    l.map (fun x => if x.id == n then b else x) = l := by
  induction l with
  | nil => rfl
  | cons x xs ih =>
    rw [List.map_cons]
    rw [if_neg (by simpa using h x (by simp))]
    rw [ih (fun y hy => h y (by simp [hy]))]

theorem heal_now (s : Session) (w : World) (bid : Nat) :
    (heal_block s w bid).world.now = w.now := by
  unfold heal_block
  rcases hgb : getBlock s.store bid with _ | block
  · rfl
  dsimp only
  rcases hgv : getVersion s.store bid block.current_version with _ | curv <;>
    rcases hlf : latestFailure s.store bid with _ | lerr <;>
      dsimp only <;> try rfl
  simp only [ai_heal_block]
  rcases hhe : w.heals w.healIdx with eh | g
  · rfl
  dsimp only [execute_block]
  rcases hcl : (classify_outcome (w.execs w.execIdx)).result with e | d <;>
    dsimp only <;> rfl

theorem heal_logs_mono (s : Session) (w : World) (bid : Nat) (l : LogRow)
    (hl : l ∈ s.store.logs) :
    l ∈ (heal_block s w bid).sess.store.logs := by
  unfold heal_block
  rcases hgb : getBlock s.store bid with _ | block
  · exact hl
  dsimp only
  rcases hgv : getVersion s.store bid block.current_version with _ | curv <;>
    rcases hlf : latestFailure s.store bid with _ | lerr <;>
      dsimp only <;> try exact hl
  simp only [ai_heal_block]
  rcases hhe : w.heals w.healIdx with eh | g
  · simp [addLog, hl]
  dsimp only [execute_block]
  rcases hcl : (classify_outcome (w.execs w.execIdx)).result with e | d <;> dsimp only
  · simp [addLog, addVersion, hl]
  · simp [addLog, addVersion, setBlock, hl]

theorem heal_cases (s : Session) (w : World) (bid : Nat) :
    (heal_block s w bid).sess.store.blocks = s.store.blocks ∨
    (∃ block, getBlock s.store bid = some block ∧
      (heal_block s w bid).sess.store.blocks =
        (setBlock s.store { block with
          current_version := block.current_version + 1,
          status := "active", updated_at := w.now }).blocks ∧
      Eff.exec block.id (block.current_version + 1) true ∈ (heal_block s w bid).effs) := by
  unfold heal_block
  rcases hgb : getBlock s.store bid with _ | block
  · exact Or.inl rfl
  dsimp only
  rcases hgv : getVersion s.store bid block.current_version with _ | curv <;>
    rcases hlf : latestFailure s.store bid with _ | lerr <;>
      dsimp only <;> try exact Or.inl rfl
  simp only [ai_heal_block]
  rcases hhe : w.heals w.healIdx with eh | g
  · exact Or.inl rfl
  dsimp only [execute_block]
  rcases hcl : (classify_outcome (w.execs w.execIdx)).result with e | d <;> dsimp only
  · exact Or.inl rfl
  · refine Or.inr ⟨block, rfl, rfl, ?_⟩
    simp [exceptOk]

theorem refresh_no_heal_blocks (fuel : Nat) (s : Session) (w : World) (bid : Nat)
    (hrec : ∃ l ∈ s.store.logs, l.block_id = bid ∧ l.success = false ∧
      l.created_at > w.now - 3600) :
    (refresh_block_data fuel s w bid).sess.store.blocks = s.store.blocks ∧
    countHealCalls (refresh_block_data fuel s w bid).effs = 0 := by
  obtain ⟨l0, hl0, h0b, h0s, h0t⟩ := hrec
  cases fuel with
  | zero => exact ⟨rfl, rfl⟩
  | succ fuel =>
    unfold refresh_block_data
    rcases hgb : getBlock s.store bid with _ | block
    · exact ⟨rfl, rfl⟩
    dsimp only
    rcases hgv : getVersion s.store bid block.current_version with _ | curv
    · exact ⟨rfl, rfl⟩
    dsimp only
    have hbid : block.id = bid := by simpa using List.find?_some hgb
    dsimp only [execute_block]
    rcases hcl : (classify_outcome (w.execs w.execIdx)).result with e | d <;> dsimp only
    case ok =>
      constructor
      · simp [addLog, addDataRow]
      · simp [countHealCalls, isHealCallEff, exceptOk]
    case error =>
      have hn : ¬ recentFailureCount (addLog s.store
          { block_id := block.id, version := block.current_version,
            execution_type := "fetch", success := false, error_message := some e,
            created_at := w.now }) bid w.now ≤ 1 :=
        throttle_exceeded s.store bid w.now l0
          { block_id := block.id, version := block.current_version,
            execution_type := "fetch", success := false, error_message := some e,
            created_at := w.now }
          hl0 h0b h0s h0t hbid rfl (by dsimp only; omega)
      rw [if_neg hn]
      constructor
      · simp [addLog]
      · simp [countHealCalls, isHealCallEff, exceptOk]

theorem refresh_cases (fuel : Nat) (s : Session) (w : World) (bid : Nat) :
    (refresh_block_data fuel s w bid).sess.store.blocks = s.store.blocks ∨
    (∃ block, getBlock s.store bid = some block ∧
      (refresh_block_data fuel s w bid).sess.store.blocks =
        (setBlock s.store { block with
          current_version := block.current_version + 1,
          status := "active", updated_at := w.now }).blocks ∧
      Eff.exec block.id (block.current_version + 1) true ∈
        (refresh_block_data fuel s w bid).effs) := by
  cases fuel with
  | zero => exact Or.inl rfl
  | succ fuel =>
    unfold refresh_block_data
    rcases hgb : getBlock s.store bid with _ | b0
    · exact Or.inl rfl
    dsimp only
    have hbid : b0.id = bid := by
      have hgb2 : getBlock s.store bid = some b0 := hgb
      simpa using List.find?_some hgb2
    rcases hgv : getVersion s.store bid b0.current_version with _ | curv
    · exact Or.inl rfl
    dsimp only [execute_block]
    rcases hcl : (classify_outcome (w.execs w.execIdx)).result with e | d
    case ok =>
      try dsimp only
      exact Or.inl rfl
    case error =>
      try dsimp only
      by_cases hn : recentFailureCount (addLog s.store
          { block_id := b0.id, version := b0.current_version,
            execution_type := "fetch", success := false, error_message := some e,
            created_at := w.now }) bid w.now ≤ 1
      case neg =>
        rw [if_neg hn]
        exact Or.inl rfl
      case pos =>
        rw [if_pos hn]
        try dsimp only
        have hCases := heal_cases
          { store := addLog s.store
              { block_id := b0.id, version := b0.current_version,
                execution_type := "fetch", success := false, error_message := some e,
                created_at := w.now },
            committed := addLog s.store
              { block_id := b0.id, version := b0.current_version,
                execution_type := "fetch", success := false, error_message := some e,
                created_at := w.now } }
          { w with
            execIdx := w.execIdx + 1,
            fs := if (b0.id, b0.current_version) ∈ w.fs then w.fs
                  else w.fs ++ [(b0.id, b0.current_version)] }
          bid
        rcases hres : (heal_block
            { store := addLog s.store
                { block_id := b0.id, version := b0.current_version,
                  execution_type := "fetch", success := false, error_message := some e,
                  created_at := w.now },
              committed := addLog s.store
                { block_id := b0.id, version := b0.current_version,
                  execution_type := "fetch", success := false, error_message := some e,
                  created_at := w.now } }
            { w with
              execIdx := w.execIdx + 1,
              fs := if (b0.id, b0.current_version) ∈ w.fs then w.fs
                    else w.fs ++ [(b0.id, b0.current_version)] }
            bid).res with he | bh <;>
          try dsimp only
        case error =>
          rcases hCases with hcase | ⟨blk, hblk, hcase, heff⟩
          · exact Or.inl hcase
          · have hblkx : getBlock s.store bid = some blk := hblk
            have hb0x : getBlock s.store bid = some b0 := hgb
            have heq : blk = b0 := (Option.some.inj (hb0x.symm.trans hblkx)).symm
            refine Or.inr ⟨blk, by rw [heq], hcase, ?_⟩
            exact List.mem_append.mpr (Or.inr heff)
        case ok =>
          have hrec : ∃ l ∈ (heal_block
              { store := addLog s.store
                  { block_id := b0.id, version := b0.current_version,
                    execution_type := "fetch", success := false, error_message := some e,
                    created_at := w.now },
                committed := addLog s.store
                  { block_id := b0.id, version := b0.current_version,
                    execution_type := "fetch", success := false, error_message := some e,
                    created_at := w.now } }
              { w with
                execIdx := w.execIdx + 1,
                fs := if (b0.id, b0.current_version) ∈ w.fs then w.fs
                      else w.fs ++ [(b0.id, b0.current_version)] }
              bid).sess.store.logs, l.block_id = bid ∧ l.success = false ∧
              l.created_at > (heal_block
                { store := addLog s.store
                    { block_id := b0.id, version := b0.current_version,
                      execution_type := "fetch", success := false, error_message := some e,
                      created_at := w.now },
                  committed := addLog s.store
                    { block_id := b0.id, version := b0.current_version,
                      execution_type := "fetch", success := false, error_message := some e,
                      created_at := w.now } }
                { w with
                  execIdx := w.execIdx + 1,
                  fs := if (b0.id, b0.current_version) ∈ w.fs then w.fs
                        else w.fs ++ [(b0.id, b0.current_version)] }
                bid).world.now - 3600 := by
            refine ⟨{ block_id := b0.id,
                      version := b0.current_version,
                      execution_type := "fetch", success := false,
                      error_message := some e, created_at := w.now },
              heal_logs_mono _ _ bid _ (by simp [addLog]), hbid, rfl, ?_⟩
            rw [heal_now]
            dsimp only
            omega
          have hrb := refresh_no_heal_blocks fuel _ _ bid hrec
          rcases hres2 : (refresh_block_data fuel
              (heal_block
                { store := addLog s.store
                    { block_id := b0.id, version := b0.current_version,
                      execution_type := "fetch", success := false, error_message := some e,
                      created_at := w.now },
                  committed := addLog s.store
                    { block_id := b0.id, version := b0.current_version,
                      execution_type := "fetch", success := false, error_message := some e,
                      created_at := w.now } }
                { w with
                  execIdx := w.execIdx + 1,
                  fs := if (b0.id, b0.current_version) ∈ w.fs then w.fs
                        else w.fs ++ [(b0.id, b0.current_version)] }
                bid).sess
              (heal_block
                { store := addLog s.store
                    { block_id := b0.id, version := b0.current_version,
                      execution_type := "fetch", success := false, error_message := some e,
                      created_at := w.now },
                  committed := addLog s.store
                    { block_id := b0.id, version := b0.current_version,
                      execution_type := "fetch", success := false, error_message := some e,
                      created_at := w.now } }
                { w with
                  execIdx := w.execIdx + 1,
                  fs := if (b0.id, b0.current_version) ∈ w.fs then w.fs
                        else w.fs ++ [(b0.id, b0.current_version)] }
                bid).world
              bid).res with e2 | d2 <;>
            dsimp only <;>
            rw [hrb.1] <;>
            rcases hCases with hcase | ⟨blk, hblk, hcase, heff⟩ <;>
            [exact Or.inl hcase;
             (have hblkx : getBlock s.store bid = some blk := hblk
              have hb0x : getBlock s.store bid = some b0 := hgb
              have heq : blk = b0 := (Option.some.inj (hb0x.symm.trans hblkx)).symm
              refine Or.inr ⟨blk, by rw [heq], hcase, ?_⟩
              exact List.mem_append.mpr (Or.inl (List.mem_append.mpr (Or.inr heff))));
             exact Or.inl hcase;
             (have hblkx : getBlock s.store bid = some blk := hblk
              have hb0x : getBlock s.store bid = some b0 := hgb
              have heq : blk = b0 := (Option.some.inj (hb0x.symm.trans hblkx)).symm
              refine Or.inr ⟨blk, by rw [heq], hcase, ?_⟩
              exact List.mem_append.mpr (Or.inl (List.mem_append.mpr (Or.inr heff))))]

theorem refresh_cv (fuel : Nat) (s : Session) (w : World) (bid : Nat) (b0 b1 : BlockRow)
    (hb0 : getBlock s.store bid = some b0)
    (hb1 : getBlock (refresh_block_data fuel s w bid).sess.store bid = some b1) :
    b1.current_version = b0.current_version ∨
    (b1.current_version = b0.current_version + 1 ∧
      Eff.exec b0.id (b0.current_version + 1) true ∈
        (refresh_block_data fuel s w bid).effs) := by
  unfold getBlock at hb1
  rcases refresh_cases fuel s w bid with hcase | ⟨blk, hblk, hcase, heff⟩
  · rw [hcase] at hb1
    left
    have hb1x : getBlock s.store bid = some b1 := hb1
    have := hb0.symm.trans hb1x
    rw [Option.some.inj this]
  · have hblk0 : blk = b0 := (Option.some.inj (hb0.symm.trans hblk)).symm
    subst hblk0
    rw [hcase] at hb1
    have hfind : (setBlock s.store { blk with
        current_version := blk.current_version + 1,
        status := "active", updated_at := w.now }).blocks.find?
          (fun b => b.id == bid) =
        some { blk with
               current_version := blk.current_version + 1,
               status := "active", updated_at := w.now } :=
      find_map_setBlock s.store.blocks bid blk _ hb0 rfl
    have hbb := Option.some.inj (hfind.symm.trans hb1)
    right
    constructor
    · rw [← hbb]
    · exact heff

theorem update_cases (s : Session) (w : World) (bid : Nat) (p : String) :
    (update_block s w bid p).sess.store.blocks = s.store.blocks ∨
    (∃ block, getBlock s.store bid = some block ∧
      (((update_block s w bid p).sess.store.blocks =
          (setBlock s.store { block with
            current_version := block.current_version + 1,
            status := "active", updated_at := w.now }).blocks ∧
        Eff.exec block.id (block.current_version + 1) true ∈
          (update_block s w bid p).effs) ∨
       (update_block s w bid p).sess.store.blocks =
          (setBlock s.store { block with
            status := "error", updated_at := w.now }).blocks)) := by
  unfold update_block
  rcases hgb : getBlock s.store bid with _ | block
  · exact Or.inl rfl
  dsimp only
  simp only [generate_block_code]
  rcases hgen : w.gens w.genIdx with eg | g <;> dsimp only
  · exact Or.inl rfl
  dsimp only [execute_block]
  rcases hcl : (classify_outcome (w.execs w.execIdx)).result with e | d <;> dsimp only
  · exact Or.inr ⟨block, rfl, Or.inr rfl⟩
  · refine Or.inr ⟨block, rfl, Or.inl ⟨rfl, ?_⟩⟩
    simp [exceptOk]

theorem create_res_cases (s : Session) (w : World) (p : String) (t : Option String)
    (i : Int) :
    (∃ e, (create_block s w p t i).res = Except.error e) ∨
    (∃ b1, (create_block s w p t i).res = Except.ok b1 ∧ b1.current_version = 1) := by
  unfold create_block
  simp only [generate_block_code]
  rcases hgen : w.gens w.genIdx with eg | g <;> dsimp only
  · exact Or.inl ⟨_, rfl⟩
  dsimp only [execute_block]
  rcases hcl : (classify_outcome (w.execs w.execIdx)).result with e | d <;> dsimp only
  · exact Or.inr ⟨_, rfl, rfl⟩
  · exact Or.inr ⟨_, rfl, rfl⟩

theorem create_blocks_cases (s : Session) (w : World) (p : String) (t : Option String)
    (i : Int) (hfresh : ∀ b ∈ s.store.blocks, b.id ≠ s.store.blocks.length + 1) :
    (create_block s w p t i).sess.store.blocks = s.store.blocks ∨
    ∃ tl, (create_block s w p t i).sess.store.blocks = s.store.blocks ++ tl := by
  unfold create_block
  simp only [generate_block_code]
  rcases hgen : w.gens w.genIdx with eg | g <;> dsimp only
  · exact Or.inl rfl
  dsimp only [execute_block]
  rcases hcl : (classify_outcome (w.execs w.execIdx)).result with e | d <;>
    dsimp only [setBlock, addLog, addVersion] <;>
    exact Or.inr ⟨_, by rw [List.map_append, setBlock_no_match s.store.blocks _ _ hfresh]⟩

theorem delete_cases (s : Session) (bid : Nat) :
    (delete_block s bid).2.store.blocks = s.store.blocks ∨
    (∃ block, getBlock s.store bid = some block ∧
      (delete_block s bid).2.store.blocks =
        (setBlock s.store { block with status := "deleted" }).blocks) := by
  unfold delete_block
  rcases hgb : getBlock s.store bid with _ | block <;> dsimp only
  · exact Or.inl rfl
  · exact Or.inr ⟨block, rfl, rfl⟩

theorem layout_cases (s : Session) (w : World) (bid : Nat) (ld : Nat) :
    (update_block_layout s w bid ld).2.store.blocks = s.store.blocks ∨
    (∃ block, getBlock s.store bid = some block ∧
      (update_block_layout s w bid ld).2.store.blocks =
        (setBlock s.store { block with layout_data := ld, updated_at := w.now }).blocks) := by
  unfold update_block_layout
  rcases hgb : getBlock s.store bid with _ | block <;> dsimp only
  · exact Or.inl rfl
  · exact Or.inr ⟨block, rfl, rfl⟩

theorem refresh_spec_success (fuel : Nat) (s : Session) (w : World) (bid : Nat)
    (block : BlockRow) (curv : VersionRow) (d : Payload)
    (hb : getBlock s.store bid = some block)
    (hv : getVersion s.store bid block.current_version = some curv)
    (hok : (classify_outcome (w.execs w.execIdx)).result = Except.ok d) :
    refresh_block_data (fuel + 1) s w bid =
      { res := Except.ok d,
        sess :=
          { store := addLog (addDataRow s.store
              { block_id := block.id, data := d, fetched_at := w.now,
                expires_at := some (w.now + block.refresh_interval) })
              { block_id := block.id, version := block.current_version,
                execution_type := "fetch", success := true, error_message := none,
                created_at := w.now },
            committed := addLog (addDataRow s.store
              { block_id := block.id, data := d, fetched_at := w.now,
                expires_at := some (w.now + block.refresh_interval) })
              { block_id := block.id, version := block.current_version,
                execution_type := "fetch", success := true, error_message := none,
                created_at := w.now } },
        world := { w with
          execIdx := w.execIdx + 1,
          fs := if (block.id, block.current_version) ∈ w.fs then w.fs
                else w.fs ++ [(block.id, block.current_version)] },
        effs := [Eff.exec block.id block.current_version true] } := by
  simp only [refresh_block_data, hb, hv, execute_block, hok, exceptOk]

theorem refresh_spec_throttled (fuel : Nat) (s : Session) (w : World) (bid : Nat)
    (block : BlockRow) (curv : VersionRow) (e : String)
    (hb : getBlock s.store bid = some block)
    (hv : getVersion s.store bid block.current_version = some curv)
    (hfail : (classify_outcome (w.execs w.execIdx)).result = Except.error e)
    (hn : ¬ recentFailureCount (addLog s.store
      { block_id := block.id, version := block.current_version,
        execution_type := "fetch", success := false, error_message := some e,
        created_at := w.now }) bid w.now ≤ 1) :
    refresh_block_data (fuel + 1) s w bid =
      { res := Except.error e,
        sess :=
          { store := addLog s.store
              { block_id := block.id, version := block.current_version,
                execution_type := "fetch", success := false, error_message := some e,
                created_at := w.now },
            committed := addLog s.store
              { block_id := block.id, version := block.current_version,
                execution_type := "fetch", success := false, error_message := some e,
                created_at := w.now } },
        world := { w with
          execIdx := w.execIdx + 1,
          fs := if (block.id, block.current_version) ∈ w.fs then w.fs
                else w.fs ++ [(block.id, block.current_version)] },
        effs := [Eff.exec block.id block.current_version false] } := by
  simp only [refresh_block_data, hb, hv, execute_block, hfail, exceptOk]
  rw [if_neg hn]

theorem refresh_has_exec (fuel : Nat) (s : Session) (w : World) (bid : Nat)
    (block : BlockRow) (curv : VersionRow)
    (hb : getBlock s.store bid = some block)
    (hv : getVersion s.store bid block.current_version = some curv) :
    ∃ ok, Eff.exec block.id block.current_version ok ∈
      (refresh_block_data (fuel + 1) s w bid).effs := by
  unfold refresh_block_data
  rw [hb]
  try dsimp only
  rw [hv]
  dsimp only [execute_block]
  rcases hcl : (classify_outcome (w.execs w.execIdx)).result with e | d <;> try dsimp only
  case error =>
    by_cases hn : recentFailureCount (addLog s.store
        { block_id := block.id, version := block.current_version,
          execution_type := "fetch", success := false, error_message := some e,
          created_at := w.now }) bid w.now ≤ 1
    case pos =>
      rw [if_pos hn]
      try dsimp only
      rcases hres : (heal_block
          { store := addLog s.store
              { block_id := block.id, version := block.current_version,
                execution_type := "fetch", success := false, error_message := some e,
                created_at := w.now },
            committed := addLog s.store
              { block_id := block.id, version := block.current_version,
                execution_type := "fetch", success := false, error_message := some e,
                created_at := w.now } }
          { w with
            execIdx := w.execIdx + 1,
            fs := if (block.id, block.current_version) ∈ w.fs then w.fs
                  else w.fs ++ [(block.id, block.current_version)] }
          bid).res with he | bh <;> dsimp only
      case error =>
        exact ⟨false, by simp [exceptOk]⟩
      case ok =>
        rcases hres2 : (refresh_block_data fuel
            (heal_block
              { store := addLog s.store
                  { block_id := block.id, version := block.current_version,
                    execution_type := "fetch", success := false, error_message := some e,
                    created_at := w.now },
                committed := addLog s.store
                  { block_id := block.id, version := block.current_version,
                    execution_type := "fetch", success := false, error_message := some e,
                    created_at := w.now } }
              { w with
                execIdx := w.execIdx + 1,
                fs := if (block.id, block.current_version) ∈ w.fs then w.fs
                      else w.fs ++ [(block.id, block.current_version)] }
              bid).sess
            (heal_block
              { store := addLog s.store
                  { block_id := block.id, version := block.current_version,
                    execution_type := "fetch", success := false, error_message := some e,
                    created_at := w.now },
                committed := addLog s.store
                  { block_id := block.id, version := block.current_version,
                    execution_type := "fetch", success := false, error_message := some e,
                    created_at := w.now } }
              { w with
                execIdx := w.execIdx + 1,
                fs := if (block.id, block.current_version) ∈ w.fs then w.fs
                      else w.fs ++ [(block.id, block.current_version)] }
              bid).world
            bid).res with e2 | d2 <;> dsimp only <;>
          exact ⟨false, by simp [exceptOk]⟩
    case neg =>
      rw [if_neg hn]
      exact ⟨false, by simp [exceptOk]⟩
  case ok =>
    exact ⟨true, by simp [exceptOk]⟩

/-! ## Claim theorems -/

/-- C5 (counterexample): at the concrete input where the child process
times out, `ExecutionService.execute_block` raises the distinct
"Block execution timed out" failure, but — contrary to the claim that
"the child process is killed" — its timeout handler issues no
kill/terminate action at all. -/
theorem C5_counterexample :
    (classify_outcome SubprocOutcome.timedOut).result =
      Except.error "Block execution timed out" ∧
    (classify_outcome SubprocOutcome.timedOut).killActions = [] :=
  ⟨rfl, rfl⟩

/-- C5 (amended): when the child process has not produced output and
exited within the 30-second wall-clock timeout, the Executor fails with
the distinct "timed out" failure kind — distinct from the non-zero-exit
and invalid-output failures — but the child process is not killed: the
timeout handler performs no process-control action. -/
theorem C5_timeout_behavior :
    (classify_outcome SubprocOutcome.timedOut).result =
      Except.error "Block execution timed out" ∧
    (classify_outcome SubprocOutcome.timedOut).killActions = [] ∧
    (classify_outcome SubprocOutcome.timedOut).result ≠
      (classify_outcome (SubprocOutcome.completed 1 none (some "boom"))).result ∧
    (classify_outcome SubprocOutcome.timedOut).result ≠
      (classify_outcome (SubprocOutcome.completed 0 none none)).result :=
  ⟨rfl, rfl, by decide, by decide⟩

/-- C6 (counterexample): `subprocess` is outside the allowlist and does
not start with an underscore, yet when the underlying import succeeds the
wrapper's `restricted_import` returns the module instead of rejecting
the import. -/
theorem C6_counterexample :
    restricted_import (fun _ => ImportOutcome.ok) "subprocess" = ImportOutcome.ok ∧
    "subprocess" ∉ ALLOWED_PACKAGES ∧ pyStartsWith "subprocess" "_" = false :=
  ⟨by decide, by decide, by decide⟩

/-- C6 (amended): for an import whose top-level module name is outside the
allowlist and does not start with an underscore, `restricted_import`
attempts the original import anyway; it rejects the import (as
`Package '…' is not allowed`) only when that original import itself raises
`ImportError` — every importable module passes through, and other
exceptions propagate unchanged. -/
theorem C6_import_fallthrough (original_import : String → ImportOutcome) (name : String)
    (hallow : (pySplitChar '.' name).headD "" ∉ ALLOWED_PACKAGES)
    (hund : ¬ pyStartsWith ((pySplitChar '.' name).headD "") "_") :
    restricted_import original_import name =
      match original_import name with
      | ImportOutcome.importError _ =>
          ImportOutcome.importError (s!"Package {sq}{name}{sq} is not allowed")
      | r => r := by
  simp only [restricted_import]
  rw [if_pos ⟨hallow, hund⟩]

/-- C6 witness: a failing import of `subprocess` is re-labelled as the
"not allowed" `ImportError`. -/
theorem C6_import_fallthrough_witness :
    restricted_import (fun _ => ImportOutcome.importError "No module named x") "subprocess" =
      ImportOutcome.importError (s!"Package {sq}subprocess{sq} is not allowed") := by
  have h := C6_import_fallthrough
    (fun _ => ImportOutcome.importError "No module named x") "subprocess"
    (by decide) (by decide)
  simpa using h

/-- C8: `AIService._parse_generated_code` is a total function returning a
record with `backend_code`, `frontend_code` and `explanation` fields, and
for each of the three labeled sections missing from the oracle response
text the corresponding field is the empty string. -/
theorem C8_parser_missing_sections (content : String) :
    (∃ g : GenCode, parse_generated_code content = g) ∧
    (sectionMissing content "## Backend Code" = true →
      (parse_generated_code content).backend_code = "") ∧
    (sectionMissing content "## Frontend Code" = true →
      (parse_generated_code content).frontend_code = "") ∧
    (sectionMissing content "## Explanation" = true →
      (parse_generated_code content).explanation = "") := by
  refine ⟨⟨_, rfl⟩, ?_, ?_, ?_⟩
  · intro h
    have hinv := foldl_backend_inv (pySplitChar '\n' content) (sectionMissing_forall h)
      { result := ⟨"", "", ""⟩, current_section := none, current_code := [] } (by simp)
    simp only [parse_generated_code]
    split
    · simpa using hinv.2
    · simpa using hinv.2
  · intro h
    have hinv := foldl_frontend_inv (pySplitChar '\n' content) (sectionMissing_forall h)
      { result := ⟨"", "", ""⟩, current_section := none, current_code := [] } (by simp)
    simp only [parse_generated_code]
    split
    · simpa using hinv.2
    · simpa using hinv.2
  · intro h
    have hinv := foldl_explanation_inv (pySplitChar '\n' content) (sectionMissing_forall h)
      { result := ⟨"", "", ""⟩, current_section := none, current_code := [] } (by simp)
    simp only [parse_generated_code]
    rw [if_neg]
    · simpa using hinv.2
    · intro hc
      exact hinv.1 hc.1

/-- C8 witness: on a response without any of the three section headers all
three fields come back empty. -/
theorem C8_parser_missing_sections_witness :
    (parse_generated_code "no sections here").backend_code = "" ∧
    (parse_generated_code "no sections here").frontend_code = "" ∧
    (parse_generated_code "no sections here").explanation = "" :=
  ⟨(C8_parser_missing_sections "no sections here").2.1 (by decide),
   (C8_parser_missing_sections "no sections here").2.2.1 (by decide),
   (C8_parser_missing_sections "no sections here").2.2.2 (by decide)⟩

/-- C1: when RefreshData's execution of the current version fails, the
fetch failure log is written and committed; the block's failure logs in
the trailing one-hour window are then counted (including the one just
written); if the count exceeds 1 no heal is attempted and the original
failure is raised immediately; if the count is at most 1, exactly one heal
is attempted and RefreshData is retried exactly once more (a second and,
when the healing oracle answers, a third executor run), with a successful
retry's payload returned, any nested error swallowed and the original
failure re-raised; a failure log already inside the window at call time
yields no heal at all, so at most one automated heal attempt occurs per
block per rolling hour. -/
theorem C1_refresh_throttle (fuel : Nat) (s : Session) (w : World) (bid : Nat)
    (block : BlockRow) (curv : VersionRow) (e : String)
    (r : OpResult Payload) (origLog : LogRow)
    (hb : getBlock s.store bid = some block)
    (hv : getVersion s.store bid block.current_version = some curv)
    (hfail : (classify_outcome (w.execs w.execIdx)).result = Except.error e)
    (hr : r = refresh_block_data (fuel + 2) s w bid)
    (hlog : origLog =
      { block_id := block.id, version := block.current_version,
        execution_type := "fetch", success := false, error_message := some e,
        created_at := w.now }) :
    (origLog ∈ r.sess.store.logs ∧ origLog ∈ r.sess.committed.logs) ∧
    (¬ recentFailureCount (addLog s.store origLog) bid w.now ≤ 1 →
      r.res = Except.error e ∧ countHealCalls r.effs = 0 ∧
      r.effs = [Eff.exec block.id block.current_version false] ∧
      r.sess.store = addLog s.store origLog) ∧
    (recentFailureCount (addLog s.store origLog) bid w.now ≤ 1 →
      countHealCalls r.effs = 1 ∧
      (∀ eh, w.heals w.healIdx = Except.error eh →
        countExecs r.effs = 2 ∧
        (∀ d, (classify_outcome (w.execs (w.execIdx + 1))).result = Except.ok d →
          r.res = Except.ok d) ∧
        (∀ e2, (classify_outcome (w.execs (w.execIdx + 1))).result = Except.error e2 →
          r.res = Except.error e)) ∧
      (∀ g, w.heals w.healIdx = Except.ok g →
        countExecs r.effs = 3 ∧
        (∀ d, (classify_outcome (w.execs (w.execIdx + 2))).result = Except.ok d →
          r.res = Except.ok d) ∧
        (∀ e2, (classify_outcome (w.execs (w.execIdx + 2))).result = Except.error e2 →
          r.res = Except.error e))) ∧
    ((∃ l ∈ s.store.logs, l.block_id = bid ∧ l.success = false ∧
        l.created_at > w.now - 3600) →
      countHealCalls r.effs = 0) ∧
    countHealCalls r.effs ≤ 1 := by
  subst hr
  subst hlog
  have hbid : block.id = bid := by simpa using List.find?_some hb
  have hwin : w.now > w.now - 3600 := by omega
  have h22 : fuel + 2 = (fuel + 1) + 1 := rfl
  by_cases hn : recentFailureCount (addLog s.store
      { block_id := block.id, version := block.current_version,
        execution_type := "fetch", success := false, error_message := some e,
        created_at := w.now }) bid w.now ≤ 1
  case neg =>
    rw [h22, refresh_spec_throttled (fuel + 1) s w bid block curv e hb hv hfail hn]
    refine ⟨⟨by simp [addLog], by simp [addLog]⟩, ?_, ?_, ?_, ?_⟩
    · intro _
      exact ⟨rfl, by simp [countHealCalls, isHealCallEff], rfl, rfl⟩
    · intro hn2
      exact absurd hn2 hn
    · intro _
      simp [countHealCalls, isHealCallEff]
    · simp [countHealCalls, isHealCallEff]
  case pos =>
    have hb1 : getBlock (addLog s.store
        { block_id := block.id, version := block.current_version,
          execution_type := "fetch", success := false, error_message := some e,
          created_at := w.now }) bid = some block := hb
    have hv1 : getVersion (addLog s.store
        { block_id := block.id, version := block.current_version,
          execution_type := "fetch", success := false, error_message := some e,
          created_at := w.now }) bid block.current_version = some curv := hv
    have hle1 : (latestFailure (addLog s.store
        { block_id := block.id, version := block.current_version,
          execution_type := "fetch", success := false, error_message := some e,
          created_at := w.now }) bid).isSome := by
      refine latestFailure_isSome _ bid
        { block_id := block.id, version := block.current_version,
          execution_type := "fetch", success := false, error_message := some e,
          created_at := w.now } (by simp [addLog]) ?_ rfl
      simpa using hbid
    obtain ⟨lerr1, hle1'⟩ := Option.isSome_iff_exists.mp hle1
    rw [h22]
    simp only [refresh_block_data, hb, hv, execute_block, hfail, exceptOk]
    rw [if_pos hn]
    rcases hhe : w.heals w.healIdx with eh | g
    case error =>
      rw [heal_spec_oracle_err
        { store := addLog s.store
            { block_id := block.id, version := block.current_version,
              execution_type := "fetch", success := false, error_message := some e,
              created_at := w.now },
          committed := addLog s.store
            { block_id := block.id, version := block.current_version,
              execution_type := "fetch", success := false, error_message := some e,
              created_at := w.now } }
        { w with
          execIdx := w.execIdx + 1,
          fs := if (block.id, block.current_version) ∈ w.fs then w.fs
                else w.fs ++ [(block.id, block.current_version)] }
        bid block curv lerr1 eh hb1 hv1 hle1' hhe]
      dsimp only
      have hb2 : getBlock (addLog (addLog s.store
          { block_id := block.id, version := block.current_version,
            execution_type := "fetch", success := false, error_message := some e,
            created_at := w.now })
          { block_id := block.id, version := block.current_version,
            execution_type := "heal", success := false,
            error_message := some (s!"AI healing failed: {eh}"),
            created_at := w.now }) bid = some block := hb
      have hv2 : getVersion (addLog (addLog s.store
          { block_id := block.id, version := block.current_version,
            execution_type := "fetch", success := false, error_message := some e,
            created_at := w.now })
          { block_id := block.id, version := block.current_version,
            execution_type := "heal", success := false,
            error_message := some (s!"AI healing failed: {eh}"),
            created_at := w.now }) bid block.current_version = some curv := hv
      simp only [hb2, hv2]
      rcases hret : (classify_outcome (w.execs (w.execIdx + 1))).result with e2 | d
      case error =>
        have hn2 : ¬ recentFailureCount (addLog (addLog (addLog s.store
            { block_id := block.id, version := block.current_version,
              execution_type := "fetch", success := false, error_message := some e,
              created_at := w.now })
            { block_id := block.id, version := block.current_version,
              execution_type := "heal", success := false,
              error_message := some (s!"AI healing failed: {eh}"),
              created_at := w.now })
            { block_id := block.id, version := block.current_version,
              execution_type := "fetch", success := false, error_message := some e2,
              created_at := w.now }) bid w.now ≤ 1 := by
          refine throttle_exceeded _ bid w.now
            { block_id := block.id, version := block.current_version,
              execution_type := "fetch", success := false, error_message := some e,
              created_at := w.now } _ (by simp [addLog]) hbid rfl
            (by dsimp only; omega) hbid rfl (by dsimp only; omega)
        dsimp only
        rw [if_neg hn2]
        dsimp only
        refine ⟨⟨by simp [addLog], by simp [addLog]⟩, ?_, ?_, ?_, ?_⟩
        · intro hcontra
          exact absurd hn hcontra
        · intro _
          refine ⟨by simp [countHealCalls, isHealCallEff], ?_, ?_⟩
          · intro eh2 hh2
            refine ⟨by simp [countExecs, isExecEff], ?_, ?_⟩
            · intro d hd
              simp at hd
            · intro e2x he2x
              rfl
          · intro g hg
            simp at hg
        · intro hex
          obtain ⟨l, hl, ha, hs2, ht⟩ := hex
          have hpos := recentFailureCount_pos s.store bid w.now l hl ha hs2 ht
          rw [recentFailureCount_addLog] at hn
          simp [hbid, hwin] at hn
          omega
        · simp [countHealCalls, isHealCallEff]
      case ok =>
        dsimp only
        refine ⟨⟨by simp [addLog, addDataRow], by simp [addLog, addDataRow]⟩, ?_, ?_, ?_, ?_⟩
        · intro hcontra
          exact absurd hn hcontra
        · intro _
          refine ⟨by simp [countHealCalls, isHealCallEff], ?_, ?_⟩
          · intro eh2 hh2
            refine ⟨by simp [countExecs, isExecEff], ?_, ?_⟩
            · intro d2 hd2
              have : d2 = d := (Except.ok.inj hd2).symm
              subst this
              rfl
            · intro e2x he2x
              simp at he2x
          · intro g hg
            simp at hg
        · intro hex
          obtain ⟨l, hl, ha, hs2, ht⟩ := hex
          have hpos := recentFailureCount_pos s.store bid w.now l hl ha hs2 ht
          rw [recentFailureCount_addLog] at hn
          simp [hbid, hwin] at hn
          omega
        · simp [countHealCalls, isHealCallEff]
    case ok =>
      rcases hclh : (classify_outcome (w.execs (w.execIdx + 1))).result with eh2 | p
      case error =>
        rw [heal_spec_exec_err
          { store := addLog s.store
              { block_id := block.id, version := block.current_version,
                execution_type := "fetch", success := false, error_message := some e,
                created_at := w.now },
            committed := addLog s.store
              { block_id := block.id, version := block.current_version,
                execution_type := "fetch", success := false, error_message := some e,
                created_at := w.now } }
          { w with
            execIdx := w.execIdx + 1,
            fs := if (block.id, block.current_version) ∈ w.fs then w.fs
                  else w.fs ++ [(block.id, block.current_version)] }
          bid block curv lerr1 g eh2 hb1 hv1 hle1' hhe hclh]
        dsimp only
        simp only [show w.execIdx + 1 + 1 = w.execIdx + 2 from rfl]
        have hb2 : getBlock (addLog (addVersion (addLog s.store
            { block_id := block.id, version := block.current_version,
              execution_type := "fetch", success := false, error_message := some e,
              created_at := w.now })
            { block_id := block.id, version := block.current_version + 1,
              backend_code := g.backend_code, frontend_code := g.frontend_code,
              ai_explanation := s!"Auto-healed: {g.explanation}", status := "active" })
            { block_id := block.id, version := block.current_version,
              execution_type := "heal", success := false, error_message := some eh2,
              created_at := w.now }) bid = some block := hb
        have hv2 : getVersion (addLog (addVersion (addLog s.store
            { block_id := block.id, version := block.current_version,
              execution_type := "fetch", success := false, error_message := some e,
              created_at := w.now })
            { block_id := block.id, version := block.current_version + 1,
              backend_code := g.backend_code, frontend_code := g.frontend_code,
              ai_explanation := s!"Auto-healed: {g.explanation}", status := "active" })
            { block_id := block.id, version := block.current_version,
              execution_type := "heal", success := false, error_message := some eh2,
              created_at := w.now }) bid block.current_version = some curv :=
          find?_append_some _ s.store.versions _ curv hv
        simp only [hb2, hv2]
        rcases hret : (classify_outcome (w.execs (w.execIdx + 2))).result with e2 | d
        case error =>
          have hn2 : ¬ recentFailureCount (addLog (addLog (addVersion (addLog s.store
              { block_id := block.id, version := block.current_version,
                execution_type := "fetch", success := false, error_message := some e,
                created_at := w.now })
              { block_id := block.id, version := block.current_version + 1,
                backend_code := g.backend_code, frontend_code := g.frontend_code,
                ai_explanation := s!"Auto-healed: {g.explanation}", status := "active" })
              { block_id := block.id, version := block.current_version,
                execution_type := "heal", success := false, error_message := some eh2,
                created_at := w.now })
              { block_id := block.id, version := block.current_version,
                execution_type := "fetch", success := false, error_message := some e2,
                created_at := w.now }) bid w.now ≤ 1 := by
            refine throttle_exceeded _ bid w.now
              { block_id := block.id, version := block.current_version,
                execution_type := "fetch", success := false, error_message := some e,
                created_at := w.now } _ (by simp [addLog, addVersion]) hbid rfl
              (by dsimp only; omega) hbid rfl (by dsimp only; omega)
          dsimp only
          rw [if_neg hn2]
          dsimp only
          refine ⟨⟨by simp [addLog, addVersion], by simp [addLog, addVersion]⟩, ?_, ?_, ?_, ?_⟩
          · intro hcontra
            exact absurd hn hcontra
          · intro _
            refine ⟨by simp [countHealCalls, isHealCallEff], ?_, ?_⟩
            · intro eh3 hh3
              simp at hh3
            · intro g2 hg2
              refine ⟨by simp [countExecs, isExecEff], ?_, ?_⟩
              · intro d hd
                simp at hd
              · intro e2x he2x
                rfl
          · intro hex
            obtain ⟨l, hl, ha, hs2, ht⟩ := hex
            have hpos := recentFailureCount_pos s.store bid w.now l hl ha hs2 ht
            rw [recentFailureCount_addLog] at hn
            simp [hbid, hwin] at hn
            omega
          · simp [countHealCalls, isHealCallEff]
        case ok =>
          dsimp only
          refine ⟨⟨by simp [addLog, addVersion, addDataRow],
            by simp [addLog, addVersion, addDataRow]⟩, ?_, ?_, ?_, ?_⟩
          · intro hcontra
            exact absurd hn hcontra
          · intro _
            refine ⟨by simp [countHealCalls, isHealCallEff], ?_, ?_⟩
            · intro eh3 hh3
              simp at hh3
            · intro g2 hg2
              refine ⟨by simp [countExecs, isExecEff], ?_, ?_⟩
              · intro d2 hd2
                have : d2 = d := (Except.ok.inj hd2).symm
                subst this
                rfl
              · intro e2x he2x
                simp at he2x
          · intro hex
            obtain ⟨l, hl, ha, hs2, ht⟩ := hex
            have hpos := recentFailureCount_pos s.store bid w.now l hl ha hs2 ht
            rw [recentFailureCount_addLog] at hn
            simp [hbid, hwin] at hn
            omega
          · simp [countHealCalls, isHealCallEff]
      case ok =>
        rw [heal_spec_exec_ok
          { store := addLog s.store
              { block_id := block.id, version := block.current_version,
                execution_type := "fetch", success := false, error_message := some e,
                created_at := w.now },
            committed := addLog s.store
              { block_id := block.id, version := block.current_version,
                execution_type := "fetch", success := false, error_message := some e,
                created_at := w.now } }
          { w with
            execIdx := w.execIdx + 1,
            fs := if (block.id, block.current_version) ∈ w.fs then w.fs
                  else w.fs ++ [(block.id, block.current_version)] }
          bid block curv lerr1 g p hb1 hv1 hle1' hhe hclh]
        dsimp only
        simp only [show w.execIdx + 1 + 1 = w.execIdx + 2 from rfl]
        have hb3 : getBlock (addLog (setBlock (addVersion (addLog s.store
            { block_id := block.id, version := block.current_version,
              execution_type := "fetch", success := false, error_message := some e,
              created_at := w.now })
            { block_id := block.id, version := block.current_version + 1,
              backend_code := g.backend_code, frontend_code := g.frontend_code,
              ai_explanation := s!"Auto-healed: {g.explanation}", status := "active" })
            { block with
              current_version := block.current_version + 1,
              status := "active", updated_at := w.now })
            { block_id := block.id, version := block.current_version + 1,
              execution_type := "heal", success := true, error_message := none,
              created_at := w.now }) bid =
            some { block with
              current_version := block.current_version + 1,
              status := "active", updated_at := w.now } :=
          find_map_setBlock s.store.blocks bid block _ hb rfl
        have hv3 : (getVersion (addLog (setBlock (addVersion (addLog s.store
            { block_id := block.id, version := block.current_version,
              execution_type := "fetch", success := false, error_message := some e,
              created_at := w.now })
            { block_id := block.id, version := block.current_version + 1,
              backend_code := g.backend_code, frontend_code := g.frontend_code,
              ai_explanation := s!"Auto-healed: {g.explanation}", status := "active" })
            { block with
              current_version := block.current_version + 1,
              status := "active", updated_at := w.now })
            { block_id := block.id, version := block.current_version + 1,
              execution_type := "heal", success := true, error_message := none,
              created_at := w.now }) bid (block.current_version + 1)).isSome := by
          refine List.find?_isSome.mpr ?_
          refine ⟨{ block_id := block.id,
                    version := block.current_version + 1,
                    backend_code := g.backend_code, frontend_code := g.frontend_code,
                    ai_explanation := s!"Auto-healed: {g.explanation}",
                    status := "active" }, ?_, ?_⟩
          · simp [addLog, addVersion, setBlock]
          · simp [hbid]
        obtain ⟨row, hrow⟩ := Option.isSome_iff_exists.mp hv3
        simp only [hb3]
        simp only [hrow]
        rcases hret : (classify_outcome (w.execs (w.execIdx + 2))).result with e2 | d
        case error =>
          have hn3 : ¬ recentFailureCount (addLog (addLog (setBlock (addVersion (addLog s.store
              { block_id := block.id, version := block.current_version,
                execution_type := "fetch", success := false, error_message := some e,
                created_at := w.now })
              { block_id := block.id, version := block.current_version + 1,
                backend_code := g.backend_code, frontend_code := g.frontend_code,
                ai_explanation := s!"Auto-healed: {g.explanation}", status := "active" })
              { block with
                current_version := block.current_version + 1,
                status := "active", updated_at := w.now })
              { block_id := block.id, version := block.current_version + 1,
                execution_type := "heal", success := true, error_message := none,
                created_at := w.now })
              { block_id := block.id, version := block.current_version + 1,
                execution_type := "fetch", success := false, error_message := some e2,
                created_at := w.now }) bid w.now ≤ 1 := by
            refine throttle_exceeded _ bid w.now
              { block_id := block.id, version := block.current_version,
                execution_type := "fetch", success := false, error_message := some e,
                created_at := w.now } _ (by simp [addLog, addVersion, setBlock]) hbid rfl
              (by dsimp only; omega) hbid rfl (by dsimp only; omega)
          dsimp only
          rw [if_neg hn3]
          dsimp only
          refine ⟨⟨by simp [addLog, addVersion, setBlock],
            by simp [addLog, addVersion, setBlock]⟩, ?_, ?_, ?_, ?_⟩
          · intro hcontra
            exact absurd hn hcontra
          · intro _
            refine ⟨by simp [countHealCalls, isHealCallEff], ?_, ?_⟩
            · intro eh3 hh3
              simp at hh3
            · intro g2 hg2
              refine ⟨by simp [countExecs, isExecEff], ?_, ?_⟩
              · intro d hd
                simp at hd
              · intro e2x he2x
                rfl
          · intro hex
            obtain ⟨l, hl, ha, hs2, ht⟩ := hex
            have hpos := recentFailureCount_pos s.store bid w.now l hl ha hs2 ht
            rw [recentFailureCount_addLog] at hn
            simp [hbid, hwin] at hn
            omega
          · simp [countHealCalls, isHealCallEff]
        case ok =>
          dsimp only
          refine ⟨⟨by simp [addLog, addVersion, setBlock, addDataRow],
            by simp [addLog, addVersion, setBlock, addDataRow]⟩, ?_, ?_, ?_, ?_⟩
          · intro hcontra
            exact absurd hn hcontra
          · intro _
            refine ⟨by simp [countHealCalls, isHealCallEff], ?_, ?_⟩
            · intro eh3 hh3
              simp at hh3
            · intro g2 hg2
              refine ⟨by simp [countExecs, isExecEff], ?_, ?_⟩
              · intro d2 hd2
                have : d2 = d := (Except.ok.inj hd2).symm
                subst this
                rfl
              · intro e2x he2x
                simp at he2x
          · intro hex
            obtain ⟨l, hl, ha, hs2, ht⟩ := hex
            have hpos := recentFailureCount_pos s.store bid w.now l hl ha hs2 ht
            rw [recentFailureCount_addLog] at hn
            simp [hbid, hwin] at hn
            omega
          · simp [countHealCalls, isHealCallEff]

/-- C3: across every operation, a block's stored `current_version` changes
only inside Create, Update or Heal and only when that operation's Executor
run succeeds: Create initializes it to 1 (and, under the autoincrement
freshness invariant that no existing row carries the assigned id, leaves
every existing row intact); Update and Heal either leave it unchanged or
advance it by one with a successful executor run recorded in the effect
trace, and whenever they leave the block with `status="error"` it is
unchanged; RefreshData changes it only through its inner Heal (again with
a successful run in the trace); Delete and UpdateLayout never change it. -/
theorem C3_cv_only_on_success :
    (∀ (s : Session) (w : World) (p : String) (t : Option String) (i : Int)
      (b1 : BlockRow),
      (create_block s w p t i).res = Except.ok b1 → b1.current_version = 1) ∧
    (∀ (s : Session) (w : World) (p : String) (t : Option String) (i : Int)
      (bid : Nat) (b0 : BlockRow),
      (∀ b ∈ s.store.blocks, b.id ≠ s.store.blocks.length + 1) →
      getBlock s.store bid = some b0 →
      getBlock (create_block s w p t i).sess.store bid = some b0) ∧
    (∀ (s : Session) (w : World) (bid : Nat) (p : String) (b0 b1 : BlockRow),
      getBlock s.store bid = some b0 →
      getBlock (update_block s w bid p).sess.store bid = some b1 →
      (b1.current_version = b0.current_version ∨
        (b1.current_version = b0.current_version + 1 ∧
          Eff.exec b0.id (b0.current_version + 1) true ∈ (update_block s w bid p).effs)) ∧
      (b1.status = "error" → b1.current_version = b0.current_version)) ∧
    (∀ (s : Session) (w : World) (bid : Nat) (b0 b1 : BlockRow),
      getBlock s.store bid = some b0 →
      getBlock (heal_block s w bid).sess.store bid = some b1 →
      (b1.current_version = b0.current_version ∨
        (b1.current_version = b0.current_version + 1 ∧
          Eff.exec b0.id (b0.current_version + 1) true ∈ (heal_block s w bid).effs)) ∧
      (b1.status = "error" → b1.current_version = b0.current_version)) ∧
    (∀ (fuel : Nat) (s : Session) (w : World) (bid : Nat) (b0 b1 : BlockRow),
      getBlock s.store bid = some b0 →
      getBlock (refresh_block_data fuel s w bid).sess.store bid = some b1 →
      b1.current_version = b0.current_version ∨
        (b1.current_version = b0.current_version + 1 ∧
          Eff.exec b0.id (b0.current_version + 1) true ∈
            (refresh_block_data fuel s w bid).effs)) ∧
    (∀ (s : Session) (bid : Nat) (b0 b1 : BlockRow),
      getBlock s.store bid = some b0 →
      getBlock (delete_block s bid).2.store bid = some b1 →
      b1.current_version = b0.current_version) ∧
    (∀ (s : Session) (w : World) (bid : Nat) (ld : Nat) (b0 b1 : BlockRow),
      getBlock s.store bid = some b0 →
      getBlock (update_block_layout s w bid ld).2.store bid = some b1 →
      b1.current_version = b0.current_version) := by
  refine ⟨?_, ?_, ?_, ?_, ?_, ?_, ?_⟩
  · intro s w p t i b1 hres
    rcases create_res_cases s w p t i with ⟨e, he⟩ | ⟨b2, hb2, hcv⟩
    · rw [he] at hres
      simp at hres
    · rw [hb2] at hres
      rw [← Except.ok.inj hres]
      exact hcv
  · intro s w p t i bid b0 hfresh hb0
    rcases create_blocks_cases s w p t i hfresh with hcase | ⟨tl, hcase⟩
    · unfold getBlock
      rw [hcase]
      exact hb0
    · unfold getBlock
      rw [hcase]
      exact find?_append_some _ _ _ _ hb0
  · intro s w bid p b0 b1 hb0 hb1
    unfold getBlock at hb1
    rcases update_cases s w bid p with hcase | ⟨blk, hblk, hsub⟩
    · rw [hcase] at hb1
      have hbb := Option.some.inj (hb0.symm.trans hb1)
      rw [← hbb]
      exact ⟨Or.inl rfl, fun _ => rfl⟩
    · have heqb : blk = b0 := (Option.some.inj (hb0.symm.trans hblk)).symm
      subst heqb
      rcases hsub with ⟨hcase, heff⟩ | hcase
      · rw [hcase] at hb1
        have hfind := find_map_setBlock s.store.blocks bid blk
          { blk with
            current_version := blk.current_version + 1,
            status := "active", updated_at := w.now } hb0 rfl
        have hbb := Option.some.inj (hfind.symm.trans hb1)
        constructor
        · right
          exact ⟨by rw [← hbb], heff⟩
        · intro hst
          rw [← hbb] at hst
          have hsx : ("active" : String) = "error" := hst
          exact absurd hsx (by decide)
      · rw [hcase] at hb1
        have hfind := find_map_setBlock s.store.blocks bid blk
          { blk with status := "error", updated_at := w.now } hb0 rfl
        have hbb := Option.some.inj (hfind.symm.trans hb1)
        exact ⟨Or.inl (by rw [← hbb]), fun _ => by rw [← hbb]⟩
  · intro s w bid b0 b1 hb0 hb1
    unfold getBlock at hb1
    rcases heal_cases s w bid with hcase | ⟨blk, hblk, hcase, heff⟩
    · rw [hcase] at hb1
      have hbb := Option.some.inj (hb0.symm.trans hb1)
      rw [← hbb]
      exact ⟨Or.inl rfl, fun _ => rfl⟩
    · have heqb : blk = b0 := (Option.some.inj (hb0.symm.trans hblk)).symm
      subst heqb
      rw [hcase] at hb1
      have hfind := find_map_setBlock s.store.blocks bid blk
        { blk with
          current_version := blk.current_version + 1,
          status := "active", updated_at := w.now } hb0 rfl
      have hbb := Option.some.inj (hfind.symm.trans hb1)
      constructor
      · right
        exact ⟨by rw [← hbb], heff⟩
      · intro hst
        rw [← hbb] at hst
        have hsx : ("active" : String) = "error" := hst
        exact absurd hsx (by decide)
  · intro fuel s w bid b0 b1 hb0 hb1
    exact refresh_cv fuel s w bid b0 b1 hb0 hb1
  · intro s bid b0 b1 hb0 hb1
    unfold getBlock at hb1
    rcases delete_cases s bid with hcase | ⟨blk, hblk, hcase⟩
    · rw [hcase] at hb1
      have hbb := Option.some.inj (hb0.symm.trans hb1)
      rw [← hbb]
    · have heqb : blk = b0 := (Option.some.inj (hb0.symm.trans hblk)).symm
      subst heqb
      rw [hcase] at hb1
      have hfind := find_map_setBlock s.store.blocks bid blk
        { blk with status := "deleted" } hb0 rfl
      have hbb := Option.some.inj (hfind.symm.trans hb1)
      rw [← hbb]
  · intro s w bid ld b0 b1 hb0 hb1
    unfold getBlock at hb1
    rcases layout_cases s w bid ld with hcase | ⟨blk, hblk, hcase⟩
    · rw [hcase] at hb1
      have hbb := Option.some.inj (hb0.symm.trans hb1)
      rw [← hbb]
    · have heqb : blk = b0 := (Option.some.inj (hb0.symm.trans hblk)).symm
      subst heqb
      rw [hcase] at hb1
      have hfind := find_map_setBlock s.store.blocks bid blk
        { blk with layout_data := ld, updated_at := w.now } hb0 rfl
      have hbb := Option.some.inj (hfind.symm.trans hb1)
      rw [← hbb]

/-- C3 witness: a successful update of block 1 advances `current_version`
from 1 to 2 with the successful executor run recorded in the trace. -/
theorem C3_cv_only_on_success_witness :
    ({ wBlock with
        current_version := 2, status := "active",
        updated_at := 200 } : BlockRow).current_version = wBlock.current_version ∨
    (({ wBlock with
        current_version := 2, status := "active",
        updated_at := 200 } : BlockRow).current_version = wBlock.current_version + 1 ∧
     Eff.exec wBlock.id (wBlock.current_version + 1) true ∈
       (update_block throttleSession okWorld 1 "xp").effs) :=
  ((C3_cv_only_on_success).2.2.1 throttleSession okWorld 1 "xp" wBlock
    { wBlock with current_version := 2, status := "active", updated_at := 200 }
    (by decide) (by decide)).1

/-- C1 witness: with no prior failure history, a failing refresh of block
1 triggers exactly one heal attempt; the healing oracle is down, the
single retry runs (two executor runs in total) and also times out, and the
original "timed out" failure is re-raised. -/
theorem C1_refresh_throttle_witness :
    countHealCalls (refresh_block_data 2 throttleSession healWorld 1).effs = 1 ∧
    countExecs (refresh_block_data 2 throttleSession healWorld 1).effs = 2 ∧
    (refresh_block_data 2 throttleSession healWorld 1).res =
      Except.error "Block execution timed out" := by
  have h := C1_refresh_throttle 0 throttleSession healWorld 1 wBlock wVersion
    "Block execution timed out" (refresh_block_data 2 throttleSession healWorld 1)
    { block_id := 1, version := 1, execution_type := "fetch", success := false,
      error_message := some "Block execution timed out", created_at := 200 }
    (by decide) (by decide) (by decide) rfl (by decide)
  have h3 := h.2.2.1 (by decide)
  exact ⟨h3.1, (h3.2.1 "AI down" rfl).1,
    (h3.2.1 "AI down" rfl).2.2 "Block execution timed out" (by decide)⟩

/-- C2: for every block satisfying Heal's preconditions (a version row at
`current_version` and at least one failure log), `heal_block` never raises
to its caller and commits all outcomes; on any failure of the oracle call
or of the execution of the healed code, `current_version` is not advanced
(the stored block row is unchanged), a heal failure log tagged with the
pre-heal `current_version` is committed, and the block is returned; only a
violated precondition (or a missing block) is reported as an error. -/
theorem C2_heal_no_raise (s : Session) (w : World) (block_id : Nat) (block : BlockRow)
    (curv : VersionRow) (lerr : LogRow)
    (hb : getBlock s.store block_id = some block)
    (hv : getVersion s.store block_id block.current_version = some curv)
    (hle : latestFailure s.store block_id = some lerr) :
    (∀ (s2 : Session) (w2 : World) (bid2 : Nat) (b2 : BlockRow),
      getBlock s2.store bid2 = some b2 →
      (getVersion s2.store bid2 b2.current_version = none ∨
        latestFailure s2.store bid2 = none) →
      (heal_block s2 w2 bid2).res =
        Except.error "Cannot heal block: missing version or error information") ∧
    (∃ b1, (heal_block s w block_id).res = Except.ok b1) ∧
    (heal_block s w block_id).sess.committed = (heal_block s w block_id).sess.store ∧
    (∀ eh, w.heals w.healIdx = Except.error eh →
      (heal_block s w block_id).res = Except.ok block ∧
      getBlock (heal_block s w block_id).sess.store block_id = some block ∧
      ({ block_id := block.id, version := block.current_version, execution_type := "heal",
         success := false, error_message := some (s!"AI healing failed: {eh}"),
         created_at := w.now } : LogRow) ∈ (heal_block s w block_id).sess.committed.logs) ∧
    (∀ g e, w.heals w.healIdx = Except.ok g →
      (classify_outcome (w.execs w.execIdx)).result = Except.error e →
      (heal_block s w block_id).res = Except.ok block ∧
      getBlock (heal_block s w block_id).sess.store block_id = some block ∧
      ({ block_id := block.id, version := block.current_version, execution_type := "heal",
         success := false, error_message := some e,
         created_at := w.now } : LogRow) ∈ (heal_block s w block_id).sess.committed.logs) := by
  refine ⟨?_, ?_⟩
  · intro s2 w2 bid2 b2 hb2 hdisj
    rcases hdisj with hnone | hnone
    · rcases hlf : latestFailure s2.store bid2 with _ | y <;>
        simp [heal_block, hb2, hnone, hlf]
    · rcases hgv : getVersion s2.store bid2 b2.current_version with _ | y <;>
        simp [heal_block, hb2, hnone, hgv]
  rcases hhe : w.heals w.healIdx with eh | g
  case error =>
    rw [heal_spec_oracle_err s w block_id block curv lerr eh hb hv hle hhe]
    refine ⟨⟨_, rfl⟩, rfl, ?_, ?_⟩
    · intro eh2 hhe2
      have he : eh2 = eh := (Except.error.inj hhe2).symm
      subst he
      refine ⟨rfl, hb, ?_⟩
      simp [addLog]
    · intro g2 e2 hhe2 hcl2
      simp at hhe2
  rcases hcl : (classify_outcome (w.execs w.execIdx)).result with e | d
  case error =>
    rw [heal_spec_exec_err s w block_id block curv lerr g e hb hv hle hhe hcl]
    refine ⟨⟨_, rfl⟩, rfl, ?_, ?_⟩
    · intro eh2 hhe2
      simp at hhe2
    · intro g2 e2 hhe2 hcl2
      have hg : g2 = g := (Except.ok.inj hhe2).symm
      have he : e2 = e := (Except.error.inj hcl2).symm
      subst hg
      subst he
      refine ⟨rfl, hb, ?_⟩
      simp [addLog, addVersion]
  case ok =>
    rw [heal_spec_exec_ok s w block_id block curv lerr g d hb hv hle hhe hcl]
    refine ⟨⟨_, rfl⟩, rfl, ?_, ?_⟩
    · intro eh2 hhe2
      simp at hhe2
    · intro g2 e2 hhe2 hcl2
      simp at hcl2

/-- C2 witness: with the healing oracle down, healing block 1 returns the
block unchanged and commits the heal failure log tagged with the pre-heal
version. -/
theorem C2_heal_no_raise_witness :
    (heal_block healSession healWorld 1).res = Except.ok wBlock ∧
    getBlock (heal_block healSession healWorld 1).sess.store 1 = some wBlock ∧
    ({ block_id := 1, version := 1, execution_type := "heal", success := false,
       error_message := some "AI healing failed: AI down", created_at := 200 } : LogRow) ∈
      (heal_block healSession healWorld 1).sess.committed.logs :=
  (C2_heal_no_raise healSession healWorld 1 wBlock wVersion wFailLog
    (by decide) (by decide) (by decide)).2.2.2.1 "AI down" rfl

/-- C9: the data endpoint returns the most recent cache row tagged
`cached=true`, touching neither the store nor the executor, whenever one
exists and is unexpired at call time (a null expiry counts as unexpired);
on a missing or expired row it performs exactly `refresh_block_data`'s
effects and returns the fresh payload tagged `cached=false`; the explicit
refresh endpoint runs the executor on every call, with no cache check at
all. -/
theorem C9_get_data_cache (fuel : Nat) (s : Session) (w : World) (bid : Nat) :
    (∀ cd, latestDataRow s.store bid = some cd →
      (cd.expires_at = none ∨ ∃ t, cd.expires_at = some t ∧ ¬ w.now > t) →
      (get_block_data_endpoint fuel s w bid).res = Except.ok (cd.data, true) ∧
      (get_block_data_endpoint fuel s w bid).effs = [] ∧
      (get_block_data_endpoint fuel s w bid).sess = s) ∧
    (latestDataRow s.store bid = none →
      (get_block_data_endpoint fuel s w bid).effs = (refresh_block_data fuel s w bid).effs ∧
      ∀ d, (refresh_block_data fuel s w bid).res = Except.ok d →
        (get_block_data_endpoint fuel s w bid).res = Except.ok (d, false)) ∧
    (∀ cd t, latestDataRow s.store bid = some cd → cd.expires_at = some t →
      w.now > t →
      (get_block_data_endpoint fuel s w bid).effs = (refresh_block_data fuel s w bid).effs ∧
      ∀ d, (refresh_block_data fuel s w bid).res = Except.ok d →
        (get_block_data_endpoint fuel s w bid).res = Except.ok (d, false)) ∧
    (∀ (block : BlockRow) (curv : VersionRow),
      getBlock s.store bid = some block →
      getVersion s.store bid block.current_version = some curv →
      ∃ ok, Eff.exec block.id block.current_version ok ∈
        (refresh_block_endpoint (fuel + 1) s w bid).effs) := by
  refine ⟨?_, ?_, ?_, ?_⟩
  · intro cd hcd hfresh
    unfold get_block_data_endpoint
    rw [hcd]
    dsimp only
    rcases hfresh with hnone | ⟨t, ht, hle⟩
    · rw [hnone]
      exact ⟨rfl, rfl, rfl⟩
    · rw [ht]
      rw [if_neg (by simpa using hle)]
      exact ⟨rfl, rfl, rfl⟩
  · intro hnone
    unfold get_block_data_endpoint
    rw [hnone]
    refine ⟨rfl, ?_⟩
    intro d hd
    dsimp only
    rw [hd]
    rfl
  · intro cd t hcd ht hgt
    unfold get_block_data_endpoint
    rw [hcd]
    dsimp only
    rw [ht]
    rw [if_pos (by simpa using hgt)]
    refine ⟨rfl, ?_⟩
    intro d hd
    dsimp only
    rw [hd]
    rfl
  · intro block curv hb hv
    exact refresh_has_exec fuel s w bid block curv hb hv

/-- C9 witness: with an unexpired cache row for block 1, the data endpoint
returns the cached payload tagged as cached, performing no executor run
and leaving the store untouched; the explicit refresh endpoint still runs
the executor. -/
theorem C9_get_data_cache_witness :
    ((get_block_data_endpoint 2 cacheSession okWorld 1).res = Except.ok (42, true) ∧
     (get_block_data_endpoint 2 cacheSession okWorld 1).effs = [] ∧
     (get_block_data_endpoint 2 cacheSession okWorld 1).sess = cacheSession) ∧
    (∃ ok, Eff.exec 1 1 ok ∈ (refresh_block_endpoint 2 cacheSession okWorld 1).effs) :=
  ⟨(C9_get_data_cache 2 cacheSession okWorld 1).1 freshCacheRow (by decide)
      (Or.inr ⟨500, rfl, by decide⟩),
   (C9_get_data_cache 1 cacheSession okWorld 1).2.2.2 wBlock wVersion
      (by decide) (by decide)⟩

/-- C10: the listing returns exactly the blocks whose status is not
`"deleted"` (so `error` and `disabled` blocks are included), and after the
soft delete of an existing block the row is gone from the listing while it
remains readable by id with status `"deleted"`. -/
theorem C10_listing (st : Store) (b : BlockRow) (s : Session) (block_id : Nat)
    (b0 : BlockRow) :
    (b ∈ get_blocks st ↔ b ∈ st.blocks ∧ b.status ≠ "deleted") ∧
    (getBlock s.store block_id = some b0 →
      (delete_block s block_id).1 = true ∧
      get_block (delete_block s block_id).2.store block_id =
        some { b0 with status := "deleted" } ∧
      { b0 with status := "deleted" } ∉ get_blocks (delete_block s block_id).2.store) := by
  constructor
  · simp [get_blocks, List.mem_filter, bne_iff_ne]
  · intro h
    simp only [delete_block, h]
    refine ⟨by trivial, ?_, ?_⟩
    · simp only [get_block, getBlock, setBlock]
      exact find_map_setBlock s.store.blocks block_id b0 { b0 with status := "deleted" } h rfl
    · exact not_mem_get_blocks_of_deleted _ _ rfl

/-- C10 witness: deleting the sample `error`-status block removes it from
the listing but it stays readable by id. -/
theorem C10_listing_witness :
    (delete_block { store := sampleStore, committed := sampleStore } 1).1 = true ∧
    get_block (delete_block { store := sampleStore, committed := sampleStore } 1).2.store 1 =
      some { sampleBlock with status := "deleted" } ∧
    { sampleBlock with status := "deleted" } ∉
      get_blocks (delete_block { store := sampleStore, committed := sampleStore } 1).2.store :=
  (C10_listing sampleStore sampleBlock { store := sampleStore, committed := sampleStore } 1
    sampleBlock).2 (by decide)

theorem create_versions_cases (s : Session) (w : World) (p : String) (t : Option String)
    (i : Int) :
    (create_block s w p t i).sess.store.versions = s.store.versions ∨
    ∃ r, (create_block s w p t i).sess.store.versions = s.store.versions ++ [r] ∧
      r.version = 1 := by
  unfold create_block
  simp only [generate_block_code]
  rcases hgen : w.gens w.genIdx with eg | g <;> dsimp only
  · exact Or.inl rfl
  dsimp only [execute_block]
  rcases hcl : (classify_outcome (w.execs w.execIdx)).result with e | d <;>
    dsimp only [setBlock, addVersion, addLog] <;>
    exact Or.inr ⟨_, rfl, rfl⟩

theorem update_versions_cases (s : Session) (w : World) (bid : Nat) (p : String) :
    (update_block s w bid p).sess.store.versions = s.store.versions ∨
    ∃ block r, getBlock s.store bid = some block ∧
      (update_block s w bid p).sess.store.versions = s.store.versions ++ [r] ∧
      r.version = block.current_version + 1 := by
  unfold update_block
  rcases hgb : getBlock s.store bid with _ | block
  · exact Or.inl rfl
  dsimp only
  simp only [generate_block_code]
  rcases hgen : w.gens w.genIdx with eg | g <;> dsimp only
  · exact Or.inl rfl
  dsimp only [execute_block]
  rcases hcl : (classify_outcome (w.execs w.execIdx)).result with e | d <;>
    dsimp only [setBlock, addVersion, addLog] <;>
    exact Or.inr ⟨block, _, rfl, rfl, rfl⟩

theorem heal_versions_cases (s : Session) (w : World) (bid : Nat) :
    (heal_block s w bid).sess.store.versions = s.store.versions ∨
    ∃ block r, getBlock s.store bid = some block ∧
      (heal_block s w bid).sess.store.versions = s.store.versions ++ [r] ∧
      r.version = block.current_version + 1 := by
  unfold heal_block
  rcases hgb : getBlock s.store bid with _ | block
  · exact Or.inl rfl
  dsimp only
  rcases hgv : getVersion s.store bid block.current_version with _ | curv <;>
    rcases hlf : latestFailure s.store bid with _ | lerr <;>
      dsimp only <;> try exact Or.inl rfl
  simp only [ai_heal_block]
  rcases hhe : w.heals w.healIdx with eh | g
  · exact Or.inl rfl
  dsimp only [execute_block]
  rcases hcl : (classify_outcome (w.execs w.execIdx)).result with e | d <;>
    dsimp only [setBlock, addVersion, addLog] <;>
    exact Or.inr ⟨block, _, rfl, rfl, rfl⟩

/-- C4 counterexample: from the empty store, Create (whose executor run
succeeds) followed by two Updates whose executor runs fail leaves block 1
with version rows numbered `[1, 2, 2]`: the failed first Update does not
advance `current_version`, so the second Update re-reads it and assigns
`1 + 1 = 2` again.  The numbers are therefore not assigned from the
current highest version number and are not strictly increasing. -/
theorem C4_counterexample :
    c4VersionNumbers = [1, 2, 2] ∧ ¬ c4VersionNumbers.Nodup := by
  constructor
  · decide
  · decide

/-- C4 (amended): the first version row Create writes is numbered 1, but a
version row freshly written by Update or Heal is numbered
`current_version + 1` — read from the version pointer, not from the
highest existing version number — so after a failed Update or Heal (which
leaves `current_version` in place while its version row remains) the next
attempt reuses the same number. -/
theorem C4_versioning (s : Session) (w : World) (bid : Nat) (p : String)
    (t : Option String) (i : Int) :
    (∀ v, v ∈ (create_block s w p t i).sess.store.versions →
      v ∉ s.store.versions → v.version = 1) ∧
    (∀ block, getBlock s.store bid = some block →
      ∀ v, v ∈ (update_block s w bid p).sess.store.versions →
        v ∉ s.store.versions → v.version = block.current_version + 1) ∧
    (∀ block, getBlock s.store bid = some block →
      ∀ v, v ∈ (heal_block s w bid).sess.store.versions →
        v ∉ s.store.versions → v.version = block.current_version + 1) := by
  refine ⟨?_, ?_, ?_⟩
  · intro v hv hnv
    rcases create_versions_cases s w p t i with hc | ⟨r, hc, hr⟩
    · rw [hc] at hv
      exact absurd hv hnv
    · rw [hc] at hv
      rcases List.mem_append.mp hv with h | h
      · exact absurd h hnv
      · rw [List.mem_singleton.mp h]
        exact hr
  · intro block hb v hv hnv
    rcases update_versions_cases s w bid p with hc | ⟨blk, r, hblk, hc, hr⟩
    · rw [hc] at hv
      exact absurd hv hnv
    · have hbe : blk = block := Option.some.inj (hblk.symm.trans hb)
      subst hbe
      rw [hc] at hv
      rcases List.mem_append.mp hv with h | h
      · exact absurd h hnv
      · rw [List.mem_singleton.mp h]
        exact hr
  · intro block hb v hv hnv
    rcases heal_versions_cases s w bid with hc | ⟨blk, r, hblk, hc, hr⟩
    · rw [hc] at hv
      exact absurd hv hnv
    · have hbe : blk = block := Option.some.inj (hblk.symm.trans hb)
      subst hbe
      rw [hc] at hv
      rcases List.mem_append.mp hv with h | h
      · exact absurd h hnv
      · rw [List.mem_singleton.mp h]
        exact hr

/-- C4 witness: Create from the empty store writes a version row numbered
1, and an Update of `wBlock` (current_version 1) writes a version row
numbered 2. -/
theorem C4_versioning_witness :
    ({ block_id := 1, version := 1, backend_code := "b", frontend_code := "f",
       ai_explanation := "x", status := "active" } : VersionRow).version = 1 ∧
    ({ block_id := 1, version := 2, backend_code := "b", frontend_code := "f",
       ai_explanation := "x", status := "active" } : VersionRow).version =
      wBlock.current_version + 1 :=
  ⟨(C4_versioning emptySession okWorld 1 "p" (some "T") 3600).1 _ (by decide) (by decide),
   (C4_versioning throttleSession okWorld 1 "q" (some "T") 3600).2.1 wBlock (by decide)
      _ (by decide) (by decide)⟩

/-- C7: after Create plus five successful Updates, block 1 has six
successfully executed versions, yet all six version directories remain on
disk — `cleanup_old_versions` implements the retention policy (here shown
trimming the same directory list to the five most recent) but is never
invoked by `execute_block` or by anything else, so the claimed "exactly N
remain" does not hold for the program as written. -/
theorem C7_retention_never_runs :
    c7Run.world.fs = [(1, 1), (1, 2), (1, 3), (1, 4), (1, 5), (1, 6)] ∧
    (c7Run.world.fs.filter (fun p => p.1 == 1)).length = KEEP_VERSIONS_DEFAULT + 1 ∧
    cleanup_old_versions (fun _ => false) c7Run.world.fs 1 KEEP_VERSIONS_DEFAULT =
      [(1, 2), (1, 3), (1, 4), (1, 5), (1, 6)] := by
  refine ⟨by decide, by decide, by decide⟩

end InfoCentral
